import Mathlib

/-!
# Homogeneous participating medium (src/core/volume/HomogeneousMedium.cpp)

A shallow embedding of `Tungsten::HomogeneousMedium`.

* Scalars (`float` in the source) are the elements of a linearly ordered
  field `α`; the definitions are computable for `α = ℚ`, and the theorems
  about `exp`/`log` read them over `ℝ` with `Real.exp` and `Real.log`.
  Rounding, infinities and NaN are outside this model.
* `std::exp` and `std::log` are passed to the operations as the functions
  `exp log : α → α`.
* Methods that mutate their by-reference arguments return the mutated
  copies; a `const` method returns only its result.
* `Vec3f`, the sampler, `MediumState`, the `Medium` base class, the phase
  functions and `TangentFrame` are declared in headers that are not part of
  the sources; they are modelled from the specification where marked.
* The quotient of line 71, whose divisor `sigmaT[component]` may be zero, is
  a `FloatQuotient`: a number, `+inf`, `-inf` or NaN. The other quotients keep
  field division; the value of one with a zero divisor is never used by a
  theorem.
* Which divisions a call evaluates is recorded by traced copies of `init` and
  of the six operations, which also return the divisors met, tagged with their
  source line; each copy is proved to compute what the untraced function
  computes.
-/

namespace Tungsten

/-- Three-component vector, the `Vec3f` of the source. -/
structure Vec3 (α : Type) where
  x : α
  y : α
  z : α

namespace Vec3

variable {α : Type} [LinearOrderedField α]

/-- Broadcast constructor `Vec3f(a)`. -/
def splat (a : α) : Vec3 α := ⟨a, a, a⟩

/-- Component access `v[i]` for `i` in `0..2`. -/
def get (v : Vec3 α) (i : Nat) : α :=
  match i with
  | 0 => v.x
  | 1 => v.y
  | _ => v.z

/-- Component-wise application of a scalar function (`std::exp` on a vector). -/
def map (f : α → α) (v : Vec3 α) : Vec3 α := ⟨f v.x, f v.y, f v.z⟩

/-- Vector sum `a + b`. -/
def add (a b : Vec3 α) : Vec3 α := ⟨a.x + b.x, a.y + b.y, a.z + b.z⟩

/-- Vector negation `-a`. -/
def neg (a : Vec3 α) : Vec3 α := ⟨-a.x, -a.y, -a.z⟩

/-- Component-wise product `a * b`. -/
def mul (a b : Vec3 α) : Vec3 α := ⟨a.x * b.x, a.y * b.y, a.z * b.z⟩

/-- Vector times scalar, `v * s`. -/
def mulScalar (v : Vec3 α) (s : α) : Vec3 α := ⟨v.x * s, v.y * s, v.z * s⟩

/-- Scalar times vector, `s * v`. -/
def scalarMul (s : α) (v : Vec3 α) : Vec3 α := ⟨s * v.x, s * v.y, s * v.z⟩

/-- Vector divided by a scalar, `v / s` (the `/=` of the source). -/
def divScalar (v : Vec3 α) (s : α) : Vec3 α := ⟨v.x / s, v.y / s, v.z / s⟩

/-- Modelled from the spec: the guarded scalar quotient behind the
component-wise vector division (`Vec3f::operator/` is not part of the
sources). The spec calls the division "guarded against division by zero" and
its vacuum example fixes the guarded quotient at `0`. -/
def guardedDiv (n d : α) : α := if d = 0 then 0 else n / d

/-- Modelled from the spec: component-wise vector division `a / b`, guarded
against a zero divisor (`Vec3f::operator/` is not part of the sources). -/
def div (a b : Vec3 α) : Vec3 α :=
  ⟨guardedDiv a.x b.x, guardedDiv a.y b.y, guardedDiv a.z b.z⟩

/-- Modelled from the spec: `Vec3f::max()`, the largest component
(the declaration is not part of the sources). -/
def max (v : Vec3 α) : α := Max.max (Max.max v.x v.y) v.z

/-- Modelled from the spec: `Vec3f::avg()`, the scalar mean of the three
components (the declaration is not part of the sources). -/
def avg (v : Vec3 α) : α := (v.x + v.y + v.z) / 3

/-- Dot product `a.dot(b)`. -/
def dot (a b : Vec3 α) : α := a.x * b.x + a.y * b.y + a.z * b.z

end Vec3

/-- The value of a `float` quotient whose divisor may be zero: a number when
the divisor is not zero, otherwise `+inf`, `-inf` or NaN by the sign of the
numerator. The sign of a zero is not modelled: a zero divisor is read as `+0`. -/
inductive FloatQuotient (α : Type) where
  | finite (value : α)
  | posInf
  | negInf
  | nan

namespace FloatQuotient

variable {α : Type} [LinearOrderedField α]

/-- The `float` quotient `n / d`. -/
def ofDiv (n d : α) : FloatQuotient α :=
  if d = 0 then
    if 0 < n then posInf else if n < 0 then negInf else nan
  else
    finite (n / d)

/-- The comparison `t < x` of a quotient with a number: false for `+inf` and
for NaN, true for `-inf`. -/
def ltNumber (t : FloatQuotient α) (x : α) : Bool :=
  match t with
  | finite v => decide (v < x)
  | posInf => false
  | negInf => true
  | nan => false

/-- Modelled from the spec: the clamp `min(t, x)` of a quotient to a number,
read as `t < x ? t : x` (`min` is declared outside the sources). For `+inf` and
for NaN the result is `x`. For `-inf` (a negative numerator over a zero
divisor, which at line 71 no variate in `[0,1)` produces) the source stores
`-inf`, which no scalar of the model holds: the model keeps `x` there, and no
theorem speaks of the distance or the throughput stored in that case. -/
def minNumber (t : FloatQuotient α) (x : α) : α :=
  match t with
  | finite v => if v < x then v else x
  | posInf => x
  | negInf => x
  | nan => x

end FloatQuotient

/-- Modelled from the spec: the sampler capability (`UniformSampler` is not
part of the sources). A sampler is a generator state: the sequence of draws
it will yield, each readable as a uniform variate or as an unsigned 32-bit
integer, and a cursor that every draw advances. -/
structure UniformSampler (α : Type) where
  variate : Nat → α
  integer : Nat → Nat
  cursor : Nat

namespace UniformSampler

variable {α : Type}

/-- One uniform variate, `next1D()`. -/
def next1D (s : UniformSampler α) : α × UniformSampler α :=
  (s.variate s.cursor, { s with cursor := s.cursor + 1 })

/-- One unsigned 32-bit integer draw, `nextI()`. -/
def nextI (s : UniformSampler α) : Nat × UniformSampler α :=
  (s.integer s.cursor % 2 ^ 32, { s with cursor := s.cursor + 1 })

/-- A pair of uniform variates, `next2D()`. -/
def next2D (s : UniformSampler α) : (α × α) × UniformSampler α :=
  ((s.variate s.cursor, s.variate (s.cursor + 1)), { s with cursor := s.cursor + 2 })

/-- The sampler state whose next variate is `u`; the other draws are kept. -/
def feed (s : UniformSampler α) (u : α) : UniformSampler α :=
  { s with variate := fun k => if k = s.cursor then u else s.variate k }

end UniformSampler

/-- Modelled from the spec: the per-interaction scattering event
(`VolumeScatterEvent` is declared outside the sources). The two sampler
pointers are carried as the sampler states they point to. -/
structure VolumeScatterEvent (α : Type) where
  sampler : UniformSampler α
  supplementalSampler : UniformSampler α
  wi : Vec3 α
  wo : Vec3 α
  t : α
  maxT : α
  throughput : Vec3 α
  pdf : α

/-- Modelled from the spec: the per-path medium state (`MediumState` is
declared outside the sources); only the bounce counter is used here. -/
structure MediumState where
  bounce : Int

/-- Modelled from the spec: `MediumState::advance()`, which advances the
bounce counter by one. -/
def MediumState.advance (s : MediumState) : MediumState :=
  { s with bounce := s.bounce + 1 }

/-- The medium: the `Medium` base-class fields read by this file
(`_maxBounce`, `_phaseFunction`, `_phaseG`), the two coefficients, and the
fields derived by `init`. -/
structure HomogeneousMedium (α : Type) where
  maxBounce : Int
  phaseFunction : Nat
  phaseG : α
  sigmaA : Vec3 α
  sigmaS : Vec3 α
  sigmaT : Vec3 α
  albedo : Vec3 α
  maxAlbedo : α
  absorptionWeight : α
  absorptionOnly : Bool

namespace HomogeneousMedium

variable {α : Type} [LinearOrderedField α]

/-- Coefficient derivation, `HomogeneousMedium::init()` (lines 18-25). -/
def init (m : HomogeneousMedium α) : HomogeneousMedium α :=
  let m := { m with sigmaT := Vec3.add m.sigmaA m.sigmaS }
  let m := { m with albedo := Vec3.div m.sigmaS m.sigmaT }
  let m := { m with maxAlbedo := m.albedo.max }
  let m := { m with absorptionWeight := 1 / m.maxAlbedo }
  { m with absorptionOnly := decide (m.maxAlbedo = 0) }

/-- The default constructor (lines 11-16): zero coefficients, then `init`.
The base-class fields are those the base constructor left in `base`; the
derived fields of `base` are overwritten by `init`. -/
def mkDefault (base : HomogeneousMedium α) : HomogeneousMedium α :=
  init { base with sigmaA := Vec3.splat 0, sigmaS := Vec3.splat 0 }

/-- Distance sampling, `sampleDistance` (lines 59-83). Returns the boolean
result with the event and the state as the call leaves them. The quotient of
line 71 is a `float` quotient: for `sigmaT[component] = 0` the sample `t` is
`+inf` or NaN, the test `t < maxT` fails, and the event is placed at `maxT`. -/
def sampleDistance (exp log : α → α) (m : HomogeneousMedium α)
    (event : VolumeScatterEvent α) (state : MediumState) :
    Bool × VolumeScatterEvent α × MediumState :=
  if state.bounce > m.maxBounce then
    (false, event, state)
  else if m.absorptionOnly then
    let event := { event with t := event.maxT }
    let event := { event with
      throughput := Vec3.map exp (Vec3.mulScalar (Vec3.neg m.sigmaT) event.t) }
    (true, event, state)
  else
    let drawI := event.supplementalSampler.nextI
    let event := { event with supplementalSampler := drawI.2 }
    let component := drawI.1 % 3
    let sigmaTc := m.sigmaT.get component
    let drawU := event.sampler.next1D
    let event := { event with sampler := drawU.2 }
    let t := FloatQuotient.ofDiv (-(log (1 - drawU.1))) sigmaTc
    let event := { event with t := t.minNumber event.maxT }
    let event := { event with
      throughput := Vec3.map exp (Vec3.scalarMul (-event.t) m.sigmaT) }
    let event :=
      if t.ltNumber event.maxT then
        { event with
          throughput := Vec3.divScalar event.throughput (Vec3.mul m.sigmaT event.throughput).avg }
      else
        { event with throughput := Vec3.divScalar event.throughput event.throughput.avg }
    (true, event, state.advance)

/-- Absorption decision, `absorb` (lines 85-91). The state argument is
passed by reference and never used; it is returned as it came. -/
def absorb (m : HomogeneousMedium α) (event : VolumeScatterEvent α) (state : MediumState) :
    Bool × VolumeScatterEvent α × MediumState :=
  let drawU := event.sampler.next1D
  let event := { event with sampler := drawU.2 }
  if drawU.1 ≥ m.maxAlbedo then
    (true, event, state)
  else
    (false, { event with throughput := Vec3.splat m.absorptionWeight }, state)

/-- Scattering-direction sampling, `scatter` (lines 93-101). `phaseSample`
and `phaseEvalFn` stand for `PhaseFunction::sample` and
`PhaseFunction::eval`, `toGlobal wi v` for `TangentFrame(wi).toGlobal(v)`;
none of the three is part of the sources. -/
def scatter (phaseSample : Nat → α → α × α → Vec3 α) (phaseEvalFn : Nat → α → α → α)
    (toGlobal : Vec3 α → Vec3 α → Vec3 α) (m : HomogeneousMedium α)
    (event : VolumeScatterEvent α) : Bool × VolumeScatterEvent α :=
  let drawUV := event.sampler.next2D
  let event := { event with sampler := drawUV.2 }
  let event := { event with wo := phaseSample m.phaseFunction m.phaseG drawUV.1 }
  let event := { event with pdf := phaseEvalFn m.phaseFunction event.wo.z m.phaseG }
  let event := { event with throughput := Vec3.mul event.throughput m.sigmaS }
  let event := { event with wo := toGlobal event.wi event.wo }
  (true, event)

/-- Beer-Lambert transmittance, `transmittance` (lines 103-106). -/
def transmittance (exp : α → α) (m : HomogeneousMedium α)
    (event : VolumeScatterEvent α) : Vec3 α :=
  Vec3.map exp (Vec3.mulScalar (Vec3.neg m.sigmaT) event.t)

/-- Emitted radiance, `emission` (lines 108-111): always zero. -/
def emission (_m : HomogeneousMedium α) (_event : VolumeScatterEvent α) : Vec3 α :=
  Vec3.splat 0

/-- Phase-function evaluation, `phaseEval` (lines 113-116). -/
def phaseEval (phaseEvalFn : Nat → α → α → α) (m : HomogeneousMedium α)
    (event : VolumeScatterEvent α) : Vec3 α :=
  Vec3.mulScalar m.sigmaS (phaseEvalFn m.phaseFunction (event.wi.dot event.wo) m.phaseG)

/-- The event `event` with its primary sampler set to yield `u` next. -/
def withVariate (event : VolumeScatterEvent α) (u : α) : VolumeScatterEvent α :=
  { event with sampler := event.sampler.feed u }

/-- The variates `u` in `[0,1)` on which `absorb` returns true (absorption). -/
def absorbedVariates (m : HomogeneousMedium α) (event : VolumeScatterEvent α)
    (state : MediumState) : Set α :=
  { u | 0 ≤ u ∧ u < 1 ∧ (absorb m (withVariate event u) state).1 = true }

/-- The variates `u` in `[0,1)` on which `absorb` returns false (survival). -/
def survivingVariates (m : HomogeneousMedium α) (event : VolumeScatterEvent α)
    (state : MediumState) : Set α :=
  { u | 0 ≤ u ∧ u < 1 ∧ (absorb m (withVariate event u) state).1 = false }

/-- The unclamped free-path sample `t` of line 71, for the draws the event's
samplers yield next. -/
def freePath (log : α → α) (m : HomogeneousMedium α) (event : VolumeScatterEvent α) :
    FloatQuotient α :=
  FloatQuotient.ofDiv (-(log (1 - event.sampler.next1D.1)))
    (m.sigmaT.get (event.supplementalSampler.nextI.1 % 3))

/-- A scalar division written in the source: the line it stands on and the
value of its divisor when it is evaluated. -/
structure Division (α : Type) where
  line : Nat
  divisor : α

/-- The divisions of the guarded component-wise quotient of line 21: a channel
whose divisor is zero is skipped by the guard (modelled from the spec, see
`Vec3.guardedDiv`). -/
def guardedDivisions (b : Vec3 α) : List (Division α) :=
  (if b.x = 0 then [] else [⟨21, b.x⟩]) ++ (if b.y = 0 then [] else [⟨21, b.y⟩]) ++
    (if b.z = 0 then [] else [⟨21, b.z⟩])

/-- The derivation `init` (lines 18-25) together with the divisions it
evaluates, in order: the component-wise quotient of line 21 and the scalar
quotient `1.0f/_maxAlbedo` of line 23. -/
def initTraced (m : HomogeneousMedium α) : HomogeneousMedium α × List (Division α) :=
  let m := { m with sigmaT := Vec3.add m.sigmaA m.sigmaS }
  let trace := guardedDivisions m.sigmaT
  let m := { m with albedo := Vec3.div m.sigmaS m.sigmaT }
  let m := { m with maxAlbedo := m.albedo.max }
  let trace := trace ++ [⟨23, m.maxAlbedo⟩]
  let m := { m with absorptionWeight := 1 / m.maxAlbedo }
  ({ m with absorptionOnly := decide (m.maxAlbedo = 0) }, trace)

/-- The values of the three divisors of the general branch of `sampleDistance`
for the draws the event's samplers yield next: `sigmaT[component]` (line 71),
the mean of `sigmaT * T` (line 75) and the mean of `T` (line 77), with `T` the
transmittance at the clamped distance. -/
def generalDivisors (exp log : α → α) (m : HomogeneousMedium α)
    (event : VolumeScatterEvent α) : α × α × α :=
  let t := freePath log m event
  let tClamped := t.minNumber event.maxT
  let T := Vec3.map exp (Vec3.scalarMul (-tClamped) m.sigmaT)
  (m.sigmaT.get (event.supplementalSampler.nextI.1 % 3), (Vec3.mul m.sigmaT T).avg, T.avg)

/-- Distance sampling `sampleDistance` (lines 59-83) together with the
divisions it evaluates, in order: none on failure and in the absorption-only
branch; in the general branch the quotient of line 71 and then the `/=` of
line 75 or of line 77. -/
def sampleDistanceTraced (exp log : α → α) (m : HomogeneousMedium α)
    (event : VolumeScatterEvent α) (state : MediumState) :
    (Bool × VolumeScatterEvent α × MediumState) × List (Division α) :=
  if state.bounce > m.maxBounce then
    ((false, event, state), [])
  else if m.absorptionOnly then
    let event := { event with t := event.maxT }
    let event := { event with
      throughput := Vec3.map exp (Vec3.mulScalar (Vec3.neg m.sigmaT) event.t) }
    ((true, event, state), [])
  else
    let drawI := event.supplementalSampler.nextI
    let event := { event with supplementalSampler := drawI.2 }
    let component := drawI.1 % 3
    let sigmaTc := m.sigmaT.get component
    let drawU := event.sampler.next1D
    let event := { event with sampler := drawU.2 }
    let t := FloatQuotient.ofDiv (-(log (1 - drawU.1))) sigmaTc
    let trace : List (Division α) := [⟨71, sigmaTc⟩]
    let event := { event with t := t.minNumber event.maxT }
    let event := { event with
      throughput := Vec3.map exp (Vec3.scalarMul (-event.t) m.sigmaT) }
    if t.ltNumber event.maxT then
      ((true,
        { event with
          throughput := Vec3.divScalar event.throughput (Vec3.mul m.sigmaT event.throughput).avg },
        state.advance),
       trace ++ [⟨75, (Vec3.mul m.sigmaT event.throughput).avg⟩])
    else
      ((true,
        { event with throughput := Vec3.divScalar event.throughput event.throughput.avg },
        state.advance),
       trace ++ [⟨77, event.throughput.avg⟩])

/-- The functions the medium takes from outside this file: `std::exp`,
`std::log`, `PhaseFunction::sample`, `PhaseFunction::eval` and
`TangentFrame(wi).toGlobal(v)`. -/
structure External (α : Type) where
  exp : α → α
  log : α → α
  phaseSample : Nat → α → α × α → Vec3 α
  phaseEvalFn : Nat → α → α → α
  toGlobal : Vec3 α → Vec3 α → Vec3 α

/-- The operations an integrator calls on a medium during rendering. -/
inductive Operation where
  | sampleDistance
  | absorb
  | scatter
  | transmittance
  | emission
  | phaseEval

/-- One call of an operation on the caller's event and state, which are
returned as the call leaves them. `scatter` takes no state; `transmittance`,
`emission` and `phaseEval` are `const` methods on a `const` event. -/
def applyOperation (ext : External α) (m : HomogeneousMedium α) (op : Operation)
    (p : VolumeScatterEvent α × MediumState) : VolumeScatterEvent α × MediumState :=
  match op with
  | Operation.sampleDistance => (sampleDistance ext.exp ext.log m p.1 p.2).2
  | Operation.absorb => (absorb m p.1 p.2).2
  | Operation.scatter =>
      ((scatter ext.phaseSample ext.phaseEvalFn ext.toGlobal m p.1).2, p.2)
  | Operation.transmittance => p
  | Operation.emission => p
  | Operation.phaseEval => p

/-- A sequence of calls, each on the event and state the previous one left. -/
def runOperations (ext : External α) (m : HomogeneousMedium α) (ops : List Operation)
    (p : VolumeScatterEvent α × MediumState) : VolumeScatterEvent α × MediumState :=
  ops.foldl (fun q op => applyOperation ext m op q) p

/-- The frame built from `wi` is orthonormal with `wi` as its third axis:
`toGlobal wi v` is `tangent * v.x + bitangent * v.y + wi * v.z` for unit
vectors `tangent`, `bitangent`, `wi` that are pairwise orthogonal. -/
def OrthonormalFrame (toGlobal : Vec3 α → Vec3 α → Vec3 α) (wi : Vec3 α) : Prop :=
  ∃ tangent bitangent : Vec3 α,
    tangent.dot tangent = 1 ∧ bitangent.dot bitangent = 1 ∧ wi.dot wi = 1 ∧
    tangent.dot bitangent = 0 ∧ wi.dot tangent = 0 ∧ wi.dot bitangent = 0 ∧
    ∀ v : Vec3 α, toGlobal wi v =
      Vec3.add (Vec3.add (Vec3.mulScalar tangent v.x) (Vec3.mulScalar bitangent v.y))
        (Vec3.mulScalar wi v.z)

end HomogeneousMedium

/-! ## Concrete inputs -/

section Inputs

variable (α : Type) [LinearOrderedField α]

/-- Base-class fields of a medium with `maxBounce = 4`; every other field is zero. -/
def baseMedium : HomogeneousMedium α :=
  { maxBounce := 4, phaseFunction := 0, phaseG := 0,
    sigmaA := Vec3.splat 0, sigmaS := Vec3.splat 0, sigmaT := Vec3.splat 0,
    albedo := Vec3.splat 0, maxAlbedo := 0, absorptionWeight := 0, absorptionOnly := false }

/-- The default-constructed medium (vacuum). -/
def vacuumMedium : HomogeneousMedium α := HomogeneousMedium.mkDefault (baseMedium α)

/-- A purely absorptive medium: `sigmaA = (1,2,3)`, `sigmaS = (0,0,0)`. -/
def absorbingMedium : HomogeneousMedium α :=
  HomogeneousMedium.init { baseMedium α with sigmaA := ⟨1, 2, 3⟩ }

/-- A scattering medium with `sigmaA = (3,3,3)`, `sigmaS = (1,1,1)`: albedo `1/4`. -/
def foggyMedium : HomogeneousMedium α :=
  HomogeneousMedium.init { baseMedium α with sigmaA := ⟨3, 3, 3⟩, sigmaS := ⟨1, 1, 1⟩ }

/-- A medium with a zero extinction channel: `sigmaA = sigmaS = (0,1,1)`, so
`sigmaT = (0,2,2)`. -/
def stripedMedium : HomogeneousMedium α :=
  HomogeneousMedium.init { baseMedium α with sigmaA := ⟨0, 1, 1⟩, sigmaS := ⟨0, 1, 1⟩ }

/-- A sampler at its first draw that yields the variate `u` and the integer `i` forever. -/
def constSampler (u : α) (i : Nat) : UniformSampler α :=
  { variate := fun _ => u, integer := fun _ => i, cursor := 0 }

/-- An event on a segment of length `1` carrying the prior throughput `(2,2,2)`;
its primary sampler yields `u`, its supplemental sampler the integer `i`. -/
def sampleEvent (u : α) (i : Nat) : VolumeScatterEvent α :=
  { sampler := constSampler α u 0, supplementalSampler := constSampler α 0 i,
    wi := ⟨0, 0, 1⟩, wo := ⟨0, 0, 1⟩, t := 0, maxT := 1,
    throughput := Vec3.splat 2, pdf := 0 }

/-- A stand-in local direction sampler: the local `z` axis whatever the variates. -/
def forwardSample : Nat → α → α × α → Vec3 α := fun _ _ _ => ⟨0, 0, 1⟩

/-- A stand-in phase function: `(1 + g * cosTheta) / 2`. -/
def linearPhase : Nat → α → α → α := fun _ cosTheta g => (1 + g * cosTheta) / 2

/-- The frame of the incident direction `(0,0,1)`: tangent `(1,0,0)`,
bitangent `(0,1,0)`, third axis `wi`. -/
def axisToGlobal : Vec3 α → Vec3 α → Vec3 α := fun wi v =>
  Vec3.add (Vec3.add (Vec3.mulScalar ⟨1, 0, 0⟩ v.x) (Vec3.mulScalar ⟨0, 1, 0⟩ v.y))
    (Vec3.mulScalar wi v.z)

/-- The external functions used on the concrete inputs; `exp` and `log` are
given by the caller. -/
def sampleExternal (exp log : α → α) : HomogeneousMedium.External α :=
  { exp := exp, log := log, phaseSample := forwardSample α, phaseEvalFn := linearPhase α,
    toGlobal := axisToGlobal α }

end Inputs

/-! ## Distance sampling: the bounce limit -/

section Theorems

open HomogeneousMedium

variable {α : Type} [LinearOrderedField α]

/-- C1: `sampleDistance` returns false exactly when `state.bounce > maxBounce`;
at `state.bounce = maxBounce` it returns true, whichever branch the medium
takes, and at `state.bounce = maxBounce + 1` it returns false. -/
theorem sampleDistance_false_iff_bounce_gt (exp log : α → α) (m : HomogeneousMedium α)
    (event : VolumeScatterEvent α) (state : MediumState) :
    ((sampleDistance exp log m event state).1 = false ↔ state.bounce > m.maxBounce) ∧
    (sampleDistance exp log m event { state with bounce := m.maxBounce }).1 = true ∧
    (sampleDistance exp log m event { state with bounce := m.maxBounce + 1 }).1 = false := by
  refine ⟨?_, ?_, ?_⟩
  · unfold sampleDistance
    by_cases hb : state.bounce > m.maxBounce
    · simp [hb]
    · cases hAbs : m.absorptionOnly <;> simp [hb]
  · unfold sampleDistance
    cases hAbs : m.absorptionOnly <;> simp
  · unfold sampleDistance
    simp

/-! ## Distance sampling: the two branches -/

/-- The absorption-only branch of `sampleDistance`, as one equation. -/
theorem sampleDistance_eq_of_absorptionOnly (exp log : α → α) (m : HomogeneousMedium α)
    (event : VolumeScatterEvent α) (state : MediumState)
    (hB : state.bounce ≤ m.maxBounce) (hAbs : m.absorptionOnly = true) :
    sampleDistance exp log m event state =
      (true,
       { event with
         t := event.maxT
         throughput := Vec3.map exp (Vec3.mulScalar (Vec3.neg m.sigmaT) event.maxT) },
       state) := by
  have hb : ¬ state.bounce > m.maxBounce := not_lt.mpr hB
  simp [sampleDistance, hb, hAbs]

/-- A medium whose scattering coefficient is zero derives `absorptionOnly`
and has `sigmaT = sigmaA`. -/
theorem init_of_sigmaS_zero (m0 : HomogeneousMedium α) (hS : m0.sigmaS = Vec3.splat 0) :
    (init m0).absorptionOnly = true ∧ (init m0).sigmaT = m0.sigmaA := by
  simp [init, hS, Vec3.splat, Vec3.div, Vec3.guardedDiv, Vec3.max, Vec3.add]

/-- C2 (as stated, refuted): on the purely absorptive medium with
`sigmaA = (1,2,3)`, a segment of length `1` and prior throughput `(2,2,2)`,
`sampleDistance` leaves the throughput `exp(-sigmaT * maxT)`, which is not the
prior throughput multiplied by `exp(-sigmaT * maxT)`. -/
theorem sampleDistance_absorptionOnly_not_multiplied :
    (absorbingMedium ℝ).absorptionOnly = true ∧
    (⟨0⟩ : MediumState).bounce ≤ (absorbingMedium ℝ).maxBounce ∧
    (sampleDistance Real.exp Real.log (absorbingMedium ℝ) (sampleEvent ℝ 0 0) ⟨0⟩).2.1.throughput
      = ⟨Real.exp (-1), Real.exp (-2), Real.exp (-3)⟩ ∧
    (sampleDistance Real.exp Real.log (absorbingMedium ℝ) (sampleEvent ℝ 0 0) ⟨0⟩).2.1.throughput
      ≠ Vec3.mul (sampleEvent ℝ 0 0).throughput
          (Vec3.map Real.exp
            (Vec3.mulScalar (Vec3.neg (absorbingMedium ℝ).sigmaT) (sampleEvent ℝ 0 0).maxT)) := by
  have hAbs : (absorbingMedium ℝ).absorptionOnly = true :=
    (init_of_sigmaS_zero _ rfl).1
  have hB : (⟨0⟩ : MediumState).bounce ≤ (absorbingMedium ℝ).maxBounce := by
    simp [absorbingMedium, init, baseMedium]
  have hT : (absorbingMedium ℝ).sigmaT = ⟨1, 2, 3⟩ := by
    simp [absorbingMedium, init, baseMedium, Vec3.add, Vec3.splat]
  refine ⟨hAbs, hB, ?_, ?_⟩
  · rw [sampleDistance_eq_of_absorptionOnly _ _ _ _ _ hB hAbs]
    simp [hT, sampleEvent, Vec3.map, Vec3.mulScalar, Vec3.neg]
  · rw [sampleDistance_eq_of_absorptionOnly _ _ _ _ _ hB hAbs]
    simp only [hT, sampleEvent, Vec3.map, Vec3.mulScalar, Vec3.neg, Vec3.mul, Vec3.splat]
    intro h
    have hx := congrArg Vec3.x h
    simp only [mul_one] at hx
    have hpos := Real.exp_pos (-1)
    linarith

/-- C2 (amended): with `absorptionOnly` set and `bounce ≤ maxBounce`,
`sampleDistance` returns true, sets `event.t = maxT` and sets
`event.throughput` to `exp(-sigmaT * maxT)` component-wise, discarding the
prior throughput; both samplers are left as they were, and the result is the
same whatever sampler states the event carries. A medium derived with
`sigmaS = 0` is such a medium, and its `sigmaT` is `sigmaA`. -/
theorem sampleDistance_absorptionOnly_sets (exp log : α → α) (m : HomogeneousMedium α)
    (event : VolumeScatterEvent α) (state : MediumState)
    (hAbs : m.absorptionOnly = true) (hB : state.bounce ≤ m.maxBounce) :
    (sampleDistance exp log m event state).1 = true ∧
    (sampleDistance exp log m event state).2.1.t = event.maxT ∧
    (sampleDistance exp log m event state).2.1.throughput =
      ⟨exp (-m.sigmaT.x * event.maxT), exp (-m.sigmaT.y * event.maxT),
       exp (-m.sigmaT.z * event.maxT)⟩ ∧
    (sampleDistance exp log m event state).2.1.sampler = event.sampler ∧
    (sampleDistance exp log m event state).2.1.supplementalSampler
      = event.supplementalSampler ∧
    (∀ (s s' : UniformSampler α) (prior : Vec3 α),
      (sampleDistance exp log m
          { event with sampler := s, supplementalSampler := s', throughput := prior } state).1
        = (sampleDistance exp log m event state).1 ∧
      (sampleDistance exp log m
          { event with sampler := s, supplementalSampler := s', throughput := prior } state).2.1.t
        = (sampleDistance exp log m event state).2.1.t ∧
      (sampleDistance exp log m
          { event with sampler := s, supplementalSampler := s', throughput := prior }
          state).2.1.throughput
        = (sampleDistance exp log m event state).2.1.throughput) ∧
    (∀ m0 : HomogeneousMedium α, m0.sigmaS = Vec3.splat 0 →
      (init m0).absorptionOnly = true ∧ (init m0).sigmaT = m0.sigmaA) := by
  refine ⟨?_, ?_, ?_, ?_, ?_, ?_, init_of_sigmaS_zero⟩
  · rw [sampleDistance_eq_of_absorptionOnly _ _ _ _ _ hB hAbs]
  · rw [sampleDistance_eq_of_absorptionOnly _ _ _ _ _ hB hAbs]
  · rw [sampleDistance_eq_of_absorptionOnly _ _ _ _ _ hB hAbs]
    simp [Vec3.map, Vec3.mulScalar, Vec3.neg]
  · rw [sampleDistance_eq_of_absorptionOnly _ _ _ _ _ hB hAbs]
  · rw [sampleDistance_eq_of_absorptionOnly _ _ _ _ _ hB hAbs]
  · intro s s' prior
    rw [sampleDistance_eq_of_absorptionOnly _ _ _ _ _ hB hAbs,
      sampleDistance_eq_of_absorptionOnly _ _ _ _ _ hB hAbs]
    simp

/-- Witness for C2 (amended): the purely absorptive medium `sigmaA = (1,2,3)`
on a unit segment. -/
theorem sampleDistance_absorptionOnly_sets_witness :
    (sampleDistance Real.exp Real.log (absorbingMedium ℝ) (sampleEvent ℝ 0 0) ⟨0⟩).2.1.t = 1 ∧
    (sampleDistance Real.exp Real.log (absorbingMedium ℝ) (sampleEvent ℝ 0 0) ⟨0⟩).2.1.throughput
      = ⟨Real.exp (-1), Real.exp (-2), Real.exp (-3)⟩ := by
  have h := sampleDistance_absorptionOnly_sets Real.exp Real.log (absorbingMedium ℝ)
    (sampleEvent ℝ 0 0) ⟨0⟩ (init_of_sigmaS_zero _ rfl).1
    (by simp [absorbingMedium, init, baseMedium])
  have hT : (absorbingMedium ℝ).sigmaT = ⟨1, 2, 3⟩ := by
    simp [absorbingMedium, init, baseMedium, Vec3.add, Vec3.splat]
  refine ⟨?_, ?_⟩
  · rw [h.2.1]; simp [sampleEvent]
  · rw [h.2.2.1]; simp [hT, sampleEvent]

/-- The medium `sigmaA = (3,3,3)`, `sigmaS = (1,1,1)` has `sigmaT = (4,4,4)`. -/
theorem foggyMedium_sigmaT : (foggyMedium ℝ).sigmaT = ⟨4, 4, 4⟩ := by
  norm_num [foggyMedium, init, baseMedium, Vec3.add]

/-- The medium `sigmaA = (3,3,3)`, `sigmaS = (1,1,1)` has `maxAlbedo = 1/4`. -/
theorem foggyMedium_maxAlbedo : (foggyMedium ℝ).maxAlbedo = 1 / 4 := by
  norm_num [foggyMedium, init, baseMedium, Vec3.add, Vec3.div, Vec3.guardedDiv, Vec3.max]

/-- The medium `sigmaA = (3,3,3)`, `sigmaS = (1,1,1)` takes the general branch. -/
theorem foggyMedium_absorptionOnly : (foggyMedium ℝ).absorptionOnly = false := by
  norm_num [foggyMedium, init, baseMedium, Vec3.add, Vec3.div, Vec3.guardedDiv, Vec3.max]

/-- The medium `sigmaA = (3,3,3)`, `sigmaS = (1,1,1)` keeps `maxBounce = 4`. -/
theorem foggyMedium_maxBounce : (foggyMedium ℝ).maxBounce = 4 := by
  simp [foggyMedium, init, baseMedium]

/-- The medium `sigmaA = sigmaS = (0,1,1)` has `sigmaT = (0,2,2)`. -/
theorem stripedMedium_sigmaT : (stripedMedium ℝ).sigmaT = ⟨0, 2, 2⟩ := by
  norm_num [stripedMedium, init, baseMedium, Vec3.add]

/-- The medium `sigmaA = sigmaS = (0,1,1)` takes the general branch. -/
theorem stripedMedium_absorptionOnly : (stripedMedium ℝ).absorptionOnly = false := by
  norm_num [stripedMedium, init, baseMedium, Vec3.add, Vec3.div, Vec3.guardedDiv, Vec3.max]

/-- The medium `sigmaA = sigmaS = (0,1,1)` keeps `maxBounce = 4`. -/
theorem stripedMedium_maxBounce : (stripedMedium ℝ).maxBounce = 4 := by
  simp [stripedMedium, init, baseMedium]

/-- The general branch of `sampleDistance`, as one equation in the free-path
sample of line 71. -/
theorem sampleDistance_eq_of_general (exp log : α → α) (m : HomogeneousMedium α)
    (event : VolumeScatterEvent α) (state : MediumState)
    (hB : state.bounce ≤ m.maxBounce) (hAbs : m.absorptionOnly = false) :
    sampleDistance exp log m event state =
      (true,
       { event with
         supplementalSampler := event.supplementalSampler.nextI.2
         sampler := event.sampler.next1D.2
         t := (freePath log m event).minNumber event.maxT
         throughput :=
           if (freePath log m event).ltNumber event.maxT = true then
             Vec3.divScalar
               (Vec3.map exp
                 (Vec3.scalarMul (-(freePath log m event).minNumber event.maxT) m.sigmaT))
               (Vec3.mul m.sigmaT
                 (Vec3.map exp
                   (Vec3.scalarMul (-(freePath log m event).minNumber event.maxT)
                     m.sigmaT))).avg
           else
             Vec3.divScalar
               (Vec3.map exp
                 (Vec3.scalarMul (-(freePath log m event).minNumber event.maxT) m.sigmaT))
               (Vec3.map exp
                 (Vec3.scalarMul (-(freePath log m event).minNumber event.maxT)
                   m.sigmaT)).avg },
       state.advance) := by
  have hb : ¬ state.bounce > m.maxBounce := not_lt.mpr hB
  unfold sampleDistance freePath
  simp only [hb, hAbs, if_false, Bool.false_eq_true]
  split <;> rfl

/-- With a non-zero extinction on the drawn channel the free-path sample is
the number `-ln(1 - u) / sigmaT[channel]`. -/
theorem freePath_of_ne_zero (log : α → α) (m : HomogeneousMedium α)
    (event : VolumeScatterEvent α)
    (hs : m.sigmaT.get (event.supplementalSampler.nextI.1 % 3) ≠ 0) :
    freePath log m event = FloatQuotient.finite
      (-(log (1 - event.sampler.next1D.1)) /
        m.sigmaT.get (event.supplementalSampler.nextI.1 % 3)) := by
  unfold freePath FloatQuotient.ofDiv
  rw [if_neg hs]

/-- With a zero extinction on the drawn channel and a non-negative numerator
the free-path sample is `+inf` or NaN: it is not below `maxT`, and its clamp
to the segment is `maxT`. -/
theorem freePath_of_zero (log : α → α) (m : HomogeneousMedium α)
    (event : VolumeScatterEvent α)
    (hs : m.sigmaT.get (event.supplementalSampler.nextI.1 % 3) = 0)
    (hn : 0 ≤ -(log (1 - event.sampler.next1D.1))) :
    (freePath log m event).ltNumber event.maxT = false ∧
    (freePath log m event).minNumber event.maxT = event.maxT := by
  unfold freePath FloatQuotient.ofDiv
  rw [if_pos hs]
  by_cases hpos : 0 < -(log (1 - event.sampler.next1D.1))
  · rw [if_pos hpos]
    exact ⟨rfl, rfl⟩
  · rw [if_neg hpos, if_neg (not_lt.mpr hn)]
    exact ⟨rfl, rfl⟩

/-- C3: in the general branch (`absorptionOnly` false, `bounce ≤ maxBounce`),
with `T = exp(-event.t * sigmaT)` component-wise at the clamped distance
`event.t`, the resulting throughput is `T` divided by the mean over the three
channels of `sigmaT * T` when the unclamped sample `t` is below `maxT`, and
`T` divided by the mean of `T` otherwise: when `t ≥ maxT`, and when the drawn
channel has `sigmaT = 0` and the sample is `+inf` or NaN (the event is then
placed at `maxT`). The case of `-inf`, a negative numerator over a zero
channel, is not covered. -/
theorem sampleDistance_general_throughput (exp log : α → α) (m : HomogeneousMedium α)
    (event : VolumeScatterEvent α) (state : MediumState)
    (hAbs : m.absorptionOnly = false) (hB : state.bounce ≤ m.maxBounce) :
    let r := (sampleDistance exp log m event state).2.1
    let sigmaTc := m.sigmaT.get (event.supplementalSampler.nextI.1 % 3)
    let num := -(log (1 - event.sampler.next1D.1))
    let T : Vec3 α :=
      ⟨exp (-r.t * m.sigmaT.x), exp (-r.t * m.sigmaT.y), exp (-r.t * m.sigmaT.z)⟩
    (sigmaTc ≠ 0 → num / sigmaTc < event.maxT →
      r.throughput = Vec3.divScalar T
        ((m.sigmaT.x * T.x + m.sigmaT.y * T.y + m.sigmaT.z * T.z) / 3)) ∧
    (sigmaTc ≠ 0 → event.maxT ≤ num / sigmaTc →
      r.throughput = Vec3.divScalar T ((T.x + T.y + T.z) / 3)) ∧
    (sigmaTc = 0 → 0 ≤ num →
      r.t = event.maxT ∧ r.throughput = Vec3.divScalar T ((T.x + T.y + T.z) / 3)) := by
  intro r sigmaTc num T
  have hr : r = (sampleDistance exp log m event state).2.1 := rfl
  rw [sampleDistance_eq_of_general exp log m event state hB hAbs] at hr
  refine ⟨fun hs ht => ?_, fun hs ht => ?_, fun hs hn => ?_⟩
  · have hlt : (freePath log m event).ltNumber event.maxT = true := by
      rw [freePath_of_ne_zero log m event hs]
      exact decide_eq_true ht
    simp only [T, hr, hlt, if_true, Vec3.map, Vec3.scalarMul, Vec3.mul, Vec3.avg]
  · have hlt : (freePath log m event).ltNumber event.maxT = false := by
      rw [freePath_of_ne_zero log m event hs]
      exact decide_eq_false (not_lt.mpr ht)
    simp only [T, hr, hlt, Bool.false_eq_true, if_false, Vec3.map, Vec3.scalarMul, Vec3.avg]
  · obtain ⟨hlt, hmin⟩ := freePath_of_zero log m event hs hn
    refine ⟨by rw [hr]; exact hmin, ?_⟩
    simp only [T, hr, hlt, Bool.false_eq_true, if_false, Vec3.map, Vec3.scalarMul, Vec3.avg]

/-- Witness for C3: on the medium `sigmaA = (3,3,3)`, `sigmaS = (1,1,1)` with
the variate `u = 0` the sample `t = 0` lies inside the unit segment and the
throughput is `1 / mean(sigmaT) = 1/4` on every channel; on the medium
`sigmaT = (0,2,2)` with channel `0` and `u = 1/2` the sample is `+inf`, the
event is placed at `maxT = 1` and the throughput is `T / mean(T)` for
`T = (1, exp(-2), exp(-2))`. -/
theorem sampleDistance_general_throughput_witness :
    (sampleDistance Real.exp Real.log (foggyMedium ℝ) (sampleEvent ℝ 0 0) ⟨0⟩).2.1.throughput
      = ⟨1 / 4, 1 / 4, 1 / 4⟩ ∧
    (sampleDistance Real.exp Real.log (stripedMedium ℝ) (sampleEvent ℝ (1 / 2) 0)
        ⟨0⟩).2.1.t = 1 ∧
    (sampleDistance Real.exp Real.log (stripedMedium ℝ) (sampleEvent ℝ (1 / 2) 0)
        ⟨0⟩).2.1.throughput
      = Vec3.divScalar ⟨1, Real.exp (-2), Real.exp (-2)⟩
          ((1 + Real.exp (-2) + Real.exp (-2)) / 3) := by
  have hT : (foggyMedium ℝ).sigmaT = ⟨4, 4, 4⟩ := foggyMedium_sigmaT
  have h := (sampleDistance_general_throughput Real.exp Real.log (foggyMedium ℝ)
    (sampleEvent ℝ 0 0) ⟨0⟩ foggyMedium_absorptionOnly
    (by simp [foggyMedium_maxBounce])).1
    (by simp [hT, sampleEvent, constSampler, UniformSampler.nextI, Vec3.get])
    (by simp [sampleEvent, constSampler, UniformSampler.next1D])
  have ht : (sampleDistance Real.exp Real.log (foggyMedium ℝ) (sampleEvent ℝ 0 0) ⟨0⟩).2.1.t
      = 0 := by
    rw [sampleDistance_eq_of_general _ _ _ _ _ (by simp [foggyMedium_maxBounce])
      foggyMedium_absorptionOnly]
    simp [freePath, FloatQuotient.ofDiv, FloatQuotient.minNumber, hT, sampleEvent,
      constSampler, UniformSampler.next1D, UniformSampler.nextI, Vec3.get]
  have hS : (stripedMedium ℝ).sigmaT = ⟨0, 2, 2⟩ := stripedMedium_sigmaT
  have h2 := (sampleDistance_general_throughput Real.exp Real.log (stripedMedium ℝ)
    (sampleEvent ℝ (1 / 2) 0) ⟨0⟩ stripedMedium_absorptionOnly
    (by simp [stripedMedium_maxBounce])).2.2
    (by simp [hS, sampleEvent, constSampler, UniformSampler.nextI, Vec3.get])
    (by
      have hlog : Real.log (1 - 1 / 2) ≤ 0 :=
        Real.log_nonpos (by norm_num) (by norm_num)
      simpa [sampleEvent, constSampler, UniformSampler.next1D] using hlog)
  refine ⟨?_, ?_, ?_⟩
  · rw [h, ht]
    simp [hT, Vec3.divScalar]
    norm_num
  · rw [h2.1]
    rfl
  · rw [h2.2, h2.1]
    have hm : ∀ (u : ℝ) (i : Nat), (sampleEvent ℝ u i).maxT = 1 := fun _ _ => rfl
    simp [hS, hm]

/-- C4: in the general branch the channel is the supplemental sampler's
integer draw modulo 3 and the stored distance is `min(t, maxT)` for
`t = -ln(1 - u) / sigmaT[channel]`, `u` the primary sampler's variate; on a
channel with `sigmaT = 0` the sample of a variate in `[0,1)` is `+inf` or NaN
and the stored distance is `maxT`. Each sampler is advanced by its one draw.
For `u` in `[0,1)`, `sigmaT[channel] > 0` and `maxT ≥ 0` the stored distance
lies in `[0, maxT]`. -/
theorem sampleDistance_general_distance (m : HomogeneousMedium ℝ)
    (event : VolumeScatterEvent ℝ) (state : MediumState)
    (hAbs : m.absorptionOnly = false) (hB : state.bounce ≤ m.maxBounce) :
    let r := (sampleDistance Real.exp Real.log m event state).2.1
    let channel := event.supplementalSampler.nextI.1 % 3
    let u := event.sampler.next1D.1
    channel < 3 ∧
    (m.sigmaT.get channel ≠ 0 →
      r.t = min (-(Real.log (1 - u)) / m.sigmaT.get channel) event.maxT) ∧
    (m.sigmaT.get channel = 0 → 0 ≤ u → u < 1 → r.t = event.maxT) ∧
    r.supplementalSampler = event.supplementalSampler.nextI.2 ∧
    r.sampler = event.sampler.next1D.2 ∧
    (0 ≤ u → u < 1 → 0 < m.sigmaT.get channel → 0 ≤ event.maxT →
      0 ≤ r.t ∧ r.t ≤ event.maxT) := by
  intro r channel u
  have hr : r = (sampleDistance Real.exp Real.log m event state).2.1 := rfl
  rw [sampleDistance_eq_of_general Real.exp Real.log m event state hB hAbs] at hr
  have hfin : m.sigmaT.get channel ≠ 0 →
      r.t = min (-(Real.log (1 - u)) / m.sigmaT.get channel) event.maxT := by
    intro hs
    have ht : r.t = (freePath Real.log m event).minNumber event.maxT := by rw [hr]
    rw [ht, freePath_of_ne_zero Real.log m event hs]
    show (if _ < event.maxT then _ else event.maxT) = _
    split
    · rename_i hlt
      exact (min_eq_left hlt.le).symm
    · rename_i hlt
      exact (min_eq_right (not_lt.mp hlt)).symm
  refine ⟨Nat.mod_lt _ (by decide), hfin, ?_, by rw [hr], by rw [hr], ?_⟩
  · intro hs hu0 hu1
    have hlog : Real.log (1 - u) ≤ 0 := Real.log_nonpos (by linarith) (by linarith)
    have ht : r.t = (freePath Real.log m event).minNumber event.maxT := by rw [hr]
    rw [ht]
    exact (freePath_of_zero Real.log m event hs (neg_nonneg.mpr hlog)).2
  · intro hu0 hu1 hs hmax
    have hlog : Real.log (1 - u) ≤ 0 := Real.log_nonpos (by linarith) (by linarith)
    have ht0 : 0 ≤ -(Real.log (1 - u)) / m.sigmaT.get channel :=
      div_nonneg (neg_nonneg.mpr hlog) hs.le
    rw [hfin hs.ne']
    exact ⟨le_min ht0 hmax, min_le_right _ _⟩

/-- Witness for C4: on the medium `sigmaA = (3,3,3)`, `sigmaS = (1,1,1)` with
the variate `u = 0` and the integer draw `7` (channel `1`) the stored distance
lies in the unit segment; on the medium `sigmaT = (0,2,2)` with channel `0`
and `u = 1/2` the stored distance is `maxT = 1`. -/
theorem sampleDistance_general_distance_witness :
    (0 ≤ (sampleDistance Real.exp Real.log (foggyMedium ℝ) (sampleEvent ℝ 0 7) ⟨0⟩).2.1.t ∧
      (sampleDistance Real.exp Real.log (foggyMedium ℝ) (sampleEvent ℝ 0 7) ⟨0⟩).2.1.t
        ≤ (sampleEvent ℝ 0 7).maxT) ∧
    (sampleDistance Real.exp Real.log (stripedMedium ℝ) (sampleEvent ℝ (1 / 2) 0)
        ⟨0⟩).2.1.t = 1 := by
  have hT : (foggyMedium ℝ).sigmaT = ⟨4, 4, 4⟩ := foggyMedium_sigmaT
  have hS : (stripedMedium ℝ).sigmaT = ⟨0, 2, 2⟩ := stripedMedium_sigmaT
  refine ⟨?_, ?_⟩
  · exact (sampleDistance_general_distance (foggyMedium ℝ) (sampleEvent ℝ 0 7) ⟨0⟩
      foggyMedium_absorptionOnly (by simp [foggyMedium_maxBounce])).2.2.2.2.2
      (by simp [sampleEvent, constSampler, UniformSampler.next1D])
      (by simp [sampleEvent, constSampler, UniformSampler.next1D])
      (by simp [hT, sampleEvent, constSampler, UniformSampler.nextI, Vec3.get])
      (by simp [sampleEvent])
  · exact (sampleDistance_general_distance (stripedMedium ℝ) (sampleEvent ℝ (1 / 2) 0) ⟨0⟩
      stripedMedium_absorptionOnly (by simp [stripedMedium_maxBounce])).2.2.1
      (by simp [hS, sampleEvent, constSampler, UniformSampler.nextI, Vec3.get])
      (by norm_num [sampleEvent, constSampler, UniformSampler.next1D])
      (by norm_num [sampleEvent, constSampler, UniformSampler.next1D])

/-! ## Absorption decision -/

/-- C5: `absorb` draws one uniform variate `u` and returns true exactly when
`u ≥ maxAlbedo`; when it returns false every component of the throughput is
`absorptionWeight`, when it returns true the throughput is the one before the
call; the primary sampler is advanced by that one draw, and nothing else, the
state included, is modified. -/
theorem absorb_spec (m : HomogeneousMedium α) (event : VolumeScatterEvent α)
    (state : MediumState) :
    ((absorb m event state).1 = true ↔ event.sampler.next1D.1 ≥ m.maxAlbedo) ∧
    (absorb m event state).2.1.throughput =
      (if (absorb m event state).1 = true then event.throughput
       else ⟨m.absorptionWeight, m.absorptionWeight, m.absorptionWeight⟩) ∧
    (absorb m event state).2.1.sampler = event.sampler.next1D.2 ∧
    (absorb m event state).2.1.sampler.cursor = event.sampler.cursor + 1 ∧
    (absorb m event state).2.1.supplementalSampler = event.supplementalSampler ∧
    (absorb m event state).2.1.t = event.t ∧
    (absorb m event state).2.1.maxT = event.maxT ∧
    (absorb m event state).2.1.wi = event.wi ∧
    (absorb m event state).2.1.wo = event.wo ∧
    (absorb m event state).2.1.pdf = event.pdf ∧
    (absorb m event state).2.2 = state := by
  by_cases h : m.maxAlbedo ≤ event.sampler.variate event.sampler.cursor
  · simp [absorb, h, UniformSampler.next1D]
  · simp [absorb, h, UniformSampler.next1D, Vec3.splat]

/-- With the variate `u` fed to the primary sampler, `absorb` returns true
exactly when `u ≥ maxAlbedo`. -/
theorem absorb_withVariate_iff (m : HomogeneousMedium α) (event : VolumeScatterEvent α)
    (state : MediumState) (u : α) :
    (absorb m (withVariate event u) state).1 = true ↔ m.maxAlbedo ≤ u := by
  by_cases h : m.maxAlbedo ≤ u
  · simp [absorb, withVariate, UniformSampler.feed, UniformSampler.next1D, h]
  · simp [absorb, withVariate, UniformSampler.feed, UniformSampler.next1D, h]

/-- On survival the throughput written by `absorb` is `absorptionWeight` on
every channel. -/
theorem absorb_withVariate_throughput (m : HomogeneousMedium α)
    (event : VolumeScatterEvent α) (state : MediumState) (u : α) (hu : u < m.maxAlbedo) :
    (absorb m (withVariate event u) state).2.1.throughput =
      ⟨m.absorptionWeight, m.absorptionWeight, m.absorptionWeight⟩ := by
  have h : ¬ m.maxAlbedo ≤ u := not_le.mpr hu
  simp [absorb, withVariate, UniformSampler.feed, UniformSampler.next1D, h, Vec3.splat]

/-- For `maxAlbedo ≤ 1` the surviving variates are the interval `[0, maxAlbedo)`. -/
theorem survivingVariates_eq_Ico (m : HomogeneousMedium α) (event : VolumeScatterEvent α)
    (state : MediumState) (hle : m.maxAlbedo ≤ 1) :
    survivingVariates m event state = Set.Ico 0 m.maxAlbedo := by
  ext u
  have hiff := absorb_withVariate_iff m event state u
  simp only [survivingVariates, Set.mem_setOf_eq, Set.mem_Ico]
  constructor
  · rintro ⟨h0, _, hf⟩
    refine ⟨h0, ?_⟩
    by_contra hc
    rw [hiff.mpr (not_lt.mp hc)] at hf
    exact Bool.noConfusion hf
  · rintro ⟨h0, h1⟩
    refine ⟨h0, lt_of_lt_of_le h1 hle, ?_⟩
    cases hr : (absorb m (withVariate event u) state).1
    · rfl
    · exact absurd (hiff.mp hr) (not_le.mpr h1)

/-- For `0 ≤ maxAlbedo` the absorbed variates are the interval `[maxAlbedo, 1)`. -/
theorem absorbedVariates_eq_Ico (m : HomogeneousMedium α) (event : VolumeScatterEvent α)
    (state : MediumState) (h0 : 0 ≤ m.maxAlbedo) :
    absorbedVariates m event state = Set.Ico m.maxAlbedo 1 := by
  ext u
  have hiff := absorb_withVariate_iff m event state u
  simp only [absorbedVariates, Set.mem_setOf_eq, Set.mem_Ico]
  constructor
  · rintro ⟨_, h1, ht⟩
    exact ⟨hiff.mp ht, h1⟩
  · rintro ⟨ha, h1⟩
    exact ⟨le_trans h0 ha, h1, hiff.mpr ha⟩

/-- C6: Russian-roulette unbiasedness. For a medium derived by `init` with
`0 < maxAlbedo ≤ 1`, the survival probability of `absorb` (the length of the
set of variates in `[0,1)` on which it returns false) is `maxAlbedo`, the
weight written to the throughput on survival is `1 / maxAlbedo`, and their
product is exactly `1`. -/
theorem absorb_roulette_unbiased (m0 : HomogeneousMedium ℝ) (event : VolumeScatterEvent ℝ)
    (state : MediumState) (hpos : 0 < (init m0).maxAlbedo) (hle : (init m0).maxAlbedo ≤ 1) :
    (MeasureTheory.volume (survivingVariates (init m0) event state)).toReal
      = (init m0).maxAlbedo ∧
    (∀ u : ℝ, (absorb (init m0) (withVariate event u) state).1 = false →
      (absorb (init m0) (withVariate event u) state).2.1.throughput
        = ⟨1 / (init m0).maxAlbedo, 1 / (init m0).maxAlbedo, 1 / (init m0).maxAlbedo⟩) ∧
    (MeasureTheory.volume (survivingVariates (init m0) event state)).toReal
      * (1 / (init m0).maxAlbedo) = 1 := by
  have hvol : (MeasureTheory.volume (survivingVariates (init m0) event state)).toReal
      = (init m0).maxAlbedo := by
    rw [survivingVariates_eq_Ico _ _ _ hle, Real.volume_Ico, sub_zero,
      ENNReal.toReal_ofReal hpos.le]
  refine ⟨hvol, ?_, ?_⟩
  · intro u hf
    have hu : u < (init m0).maxAlbedo := by
      by_contra hc
      rw [(absorb_withVariate_iff (init m0) event state u).mpr (not_lt.mp hc)] at hf
      exact Bool.noConfusion hf
    rw [absorb_withVariate_throughput _ _ _ _ hu]
    rfl
  · rw [hvol]
    exact mul_one_div_cancel hpos.ne'

/-- Witness for C6: the medium `sigmaA = (3,3,3)`, `sigmaS = (1,1,1)`, whose
`maxAlbedo` is `1/4`. -/
theorem absorb_roulette_unbiased_witness :
    (MeasureTheory.volume (survivingVariates (foggyMedium ℝ) (sampleEvent ℝ 0 0) ⟨0⟩)).toReal
      * (1 / (foggyMedium ℝ).maxAlbedo) = 1 :=
  (absorb_roulette_unbiased
    { baseMedium ℝ with sigmaA := ⟨3, 3, 3⟩, sigmaS := ⟨1, 1, 1⟩ } (sampleEvent ℝ 0 0) ⟨0⟩
    (by
      have h : (foggyMedium ℝ).maxAlbedo = 1 / 4 := foggyMedium_maxAlbedo
      unfold foggyMedium at h
      rw [h]; norm_num)
    (by
      have h : (foggyMedium ℝ).maxAlbedo = 1 / 4 := foggyMedium_maxAlbedo
      unfold foggyMedium at h
      rw [h]; norm_num)).2.2

/-- C7 (as stated, refuted): on the medium `sigmaA = (3,3,3)`,
`sigmaS = (1,1,1)`, whose `maxAlbedo` is `1/4`, the set of variates in `[0,1)`
on which `absorb` returns true has length `3/4`, not `maxAlbedo`. -/
theorem absorb_rate_ne_maxAlbedo :
    0 ≤ (foggyMedium ℝ).maxAlbedo ∧ (foggyMedium ℝ).maxAlbedo ≤ 1 ∧
    (MeasureTheory.volume (absorbedVariates (foggyMedium ℝ) (sampleEvent ℝ 0 0) ⟨0⟩)).toReal
      = 3 / 4 ∧
    (MeasureTheory.volume (absorbedVariates (foggyMedium ℝ) (sampleEvent ℝ 0 0) ⟨0⟩)).toReal
      ≠ (foggyMedium ℝ).maxAlbedo := by
  have hA : (foggyMedium ℝ).maxAlbedo = 1 / 4 := foggyMedium_maxAlbedo
  have hvol :
      (MeasureTheory.volume (absorbedVariates (foggyMedium ℝ) (sampleEvent ℝ 0 0) ⟨0⟩)).toReal
        = 3 / 4 := by
    rw [absorbedVariates_eq_Ico _ _ _ (by rw [hA]; norm_num), Real.volume_Ico, hA,
      ENNReal.toReal_ofReal (by norm_num)]
    norm_num
  refine ⟨by rw [hA]; norm_num, by rw [hA]; norm_num, hvol, ?_⟩
  rw [hvol, hA]
  norm_num

/-- C7 (amended): for a medium with `maxAlbedo` in `[0,1]`, the absorption
rate of `absorb` over a uniform variate in `[0,1)`, the length of the set of
variates on which it returns true, is `1 - maxAlbedo`; the set on which it
returns false has length `maxAlbedo`. -/
theorem absorb_rate_eq_one_sub_maxAlbedo (m : HomogeneousMedium ℝ)
    (event : VolumeScatterEvent ℝ) (state : MediumState)
    (h0 : 0 ≤ m.maxAlbedo) (h1 : m.maxAlbedo ≤ 1) :
    (MeasureTheory.volume (absorbedVariates m event state)).toReal = 1 - m.maxAlbedo ∧
    (MeasureTheory.volume (survivingVariates m event state)).toReal = m.maxAlbedo := by
  constructor
  · rw [absorbedVariates_eq_Ico _ _ _ h0, Real.volume_Ico,
      ENNReal.toReal_ofReal (by linarith)]
  · rw [survivingVariates_eq_Ico _ _ _ h1, Real.volume_Ico, sub_zero,
      ENNReal.toReal_ofReal h0]

/-- Witness for C7 (amended): the medium `sigmaA = (3,3,3)`, `sigmaS = (1,1,1)`
absorbs on a set of variates of length `1 - 1/4`. -/
theorem absorb_rate_eq_one_sub_maxAlbedo_witness :
    (MeasureTheory.volume (absorbedVariates (foggyMedium ℝ) (sampleEvent ℝ 0 0) ⟨0⟩)).toReal
      = 1 - (foggyMedium ℝ).maxAlbedo :=
  (absorb_rate_eq_one_sub_maxAlbedo (foggyMedium ℝ) (sampleEvent ℝ 0 0) ⟨0⟩
    (by rw [foggyMedium_maxAlbedo]; norm_num) (by rw [foggyMedium_maxAlbedo]; norm_num)).1

/-! ## Transmittance -/

/-- C8: `transmittance` is `exp(-sigmaT * event.t)` component-wise and does
not depend on the samplers the event carries; at `event.t = maxT` it is the
value `exp(-sigmaT * maxT)` that the absorption-only branch of
`sampleDistance` computes for the same medium and `maxT`. -/
theorem transmittance_spec (exp log : α → α) (m : HomogeneousMedium α)
    (event : VolumeScatterEvent α) :
    transmittance exp m event =
      ⟨exp (-m.sigmaT.x * event.t), exp (-m.sigmaT.y * event.t),
       exp (-m.sigmaT.z * event.t)⟩ ∧
    (∀ s s' : UniformSampler α,
      transmittance exp m { event with sampler := s, supplementalSampler := s' }
        = transmittance exp m event) ∧
    (∀ state : MediumState, m.absorptionOnly = true → state.bounce ≤ m.maxBounce →
      event.t = event.maxT →
      transmittance exp m event = (sampleDistance exp log m event state).2.1.throughput) := by
  refine ⟨rfl, fun _ _ => rfl, ?_⟩
  intro state hAbs hB ht
  rw [sampleDistance_eq_of_absorptionOnly _ _ _ _ _ hB hAbs]
  simp [transmittance, ht]

/-- Witness for C8: the purely absorptive medium `sigmaA = (1,2,3)` and an
event at the end of the unit segment. -/
theorem transmittance_spec_witness :
    transmittance Real.exp (absorbingMedium ℝ) { sampleEvent ℝ 0 0 with t := 1 } =
      (sampleDistance Real.exp Real.log (absorbingMedium ℝ)
        { sampleEvent ℝ 0 0 with t := 1 } ⟨0⟩).2.1.throughput :=
  (transmittance_spec Real.exp Real.log (absorbingMedium ℝ)
    { sampleEvent ℝ 0 0 with t := 1 }).2.2 ⟨0⟩ (init_of_sigmaS_zero _ rfl).1
    (by simp [absorbingMedium, init, baseMedium]) (by simp [sampleEvent])

/-! ## Coefficient derivation -/

/-- The default-constructed medium: zero extinction, zero albedo, absorption only. -/
theorem mkDefault_fields (base : HomogeneousMedium α) :
    (mkDefault base).sigmaT = ⟨0, 0, 0⟩ ∧ (mkDefault base).maxAlbedo = 0 ∧
    (mkDefault base).absorptionOnly = true ∧ (mkDefault base).maxBounce = base.maxBounce := by
  simp [mkDefault, init, Vec3.splat, Vec3.add, Vec3.div, Vec3.guardedDiv, Vec3.max]

/-- C9 (as stated, refuted): on the default-constructed medium, an event
carrying the throughput `(2,2,2)` leaves `sampleDistance` with the throughput
`(1,1,1)`, not with the value it had before the call. -/
theorem vacuum_throughput_not_preserved :
    (⟨0⟩ : MediumState).bounce ≤ (vacuumMedium ℝ).maxBounce ∧
    (sampleEvent ℝ 0 0).throughput = ⟨2, 2, 2⟩ ∧
    (sampleDistance Real.exp Real.log (vacuumMedium ℝ) (sampleEvent ℝ 0 0) ⟨0⟩).2.1.throughput
      = ⟨1, 1, 1⟩ ∧
    (sampleDistance Real.exp Real.log (vacuumMedium ℝ) (sampleEvent ℝ 0 0) ⟨0⟩).2.1.throughput
      ≠ (sampleEvent ℝ 0 0).throughput := by
  have hF := mkDefault_fields (baseMedium ℝ)
  have hB : (⟨0⟩ : MediumState).bounce ≤ (vacuumMedium ℝ).maxBounce := by
    simp [vacuumMedium, mkDefault, init, baseMedium]
  have hT : (sampleDistance Real.exp Real.log (vacuumMedium ℝ) (sampleEvent ℝ 0 0)
      ⟨0⟩).2.1.throughput = ⟨1, 1, 1⟩ := by
    rw [sampleDistance_eq_of_absorptionOnly _ _ _ _ _ hB hF.2.2.1]
    simp [vacuumMedium, hF.1, Vec3.map, Vec3.mulScalar, Vec3.neg]
  refine ⟨hB, rfl, hT, ?_⟩
  rw [hT]
  intro h
  have hx := congrArg Vec3.x h
  simp [sampleEvent, Vec3.splat] at hx

/-- C9 (amended): the default-constructed medium has `sigmaT = 0`,
`maxAlbedo = 0` and `absorptionOnly = true`, and every call to
`sampleDistance` with `bounce ≤ maxBounce` returns true with `event.t = maxT`
and `event.throughput = (1,1,1)`, whatever the throughput was before the
call. -/
theorem sampleDistance_vacuum (base : HomogeneousMedium ℝ) :
    (mkDefault base).sigmaA = ⟨0, 0, 0⟩ ∧ (mkDefault base).sigmaS = ⟨0, 0, 0⟩ ∧
    (mkDefault base).sigmaT = ⟨0, 0, 0⟩ ∧ (mkDefault base).maxAlbedo = 0 ∧
    (mkDefault base).absorptionOnly = true ∧
    (∀ (event : VolumeScatterEvent ℝ) (state : MediumState),
      state.bounce ≤ (mkDefault base).maxBounce →
      (sampleDistance Real.exp Real.log (mkDefault base) event state).1 = true ∧
      (sampleDistance Real.exp Real.log (mkDefault base) event state).2.1.t = event.maxT ∧
      (sampleDistance Real.exp Real.log (mkDefault base) event state).2.1.throughput
        = ⟨1, 1, 1⟩) := by
  have hF := mkDefault_fields base
  refine ⟨rfl, rfl, hF.1, hF.2.1, hF.2.2.1, ?_⟩
  intro event state hB
  rw [sampleDistance_eq_of_absorptionOnly _ _ _ _ _ hB hF.2.2.1]
  simp [hF.1, Vec3.map, Vec3.mulScalar, Vec3.neg]

/-- Witness for C9 (amended): the default-constructed medium with
`maxBounce = 4`, at bounce `0`, on the unit segment. -/
theorem sampleDistance_vacuum_witness :
    (sampleDistance Real.exp Real.log (vacuumMedium ℝ) (sampleEvent ℝ 0 0) ⟨0⟩).1 = true ∧
    (sampleDistance Real.exp Real.log (vacuumMedium ℝ) (sampleEvent ℝ 0 0) ⟨0⟩).2.1.t
      = (sampleEvent ℝ 0 0).maxT ∧
    (sampleDistance Real.exp Real.log (vacuumMedium ℝ) (sampleEvent ℝ 0 0) ⟨0⟩).2.1.throughput
      = ⟨1, 1, 1⟩ :=
  (sampleDistance_vacuum (baseMedium ℝ)).2.2.2.2.2 (sampleEvent ℝ 0 0) ⟨0⟩
    (by simp [mkDefault, init, baseMedium])

/-- The guarded albedo quotient `s / (a + s)` of non-negative `a`, `s` is
non-negative. -/
theorem guardedDiv_nonneg (a s : α) (ha : 0 ≤ a) (hs : 0 ≤ s) :
    0 ≤ Vec3.guardedDiv s (a + s) := by
  unfold Vec3.guardedDiv
  split
  · exact le_refl 0
  · exact div_nonneg hs (add_nonneg ha hs)

/-- The guarded albedo quotient `s / (a + s)` of non-negative `a`, `s` is at
most one. -/
theorem guardedDiv_le_one (a s : α) (ha : 0 ≤ a) (hs : 0 ≤ s) :
    Vec3.guardedDiv s (a + s) ≤ 1 := by
  unfold Vec3.guardedDiv
  split
  · exact zero_le_one
  · exact div_le_one_of_le₀ (le_add_of_nonneg_left ha) (add_nonneg ha hs)

/-- The guarded albedo quotient `s / (a + s)` of non-negative `a`, `s` is zero
exactly when `s` is. -/
theorem guardedDiv_eq_zero_iff (a s : α) (ha : 0 ≤ a) (hs : 0 ≤ s) :
    Vec3.guardedDiv s (a + s) = 0 ↔ s = 0 := by
  unfold Vec3.guardedDiv
  constructor
  · intro h
    split at h
    · rename_i h0
      have : s ≤ 0 := by
        have := le_add_of_nonneg_left (a := s) ha
        rw [h0] at this
        exact this
      exact le_antisymm this hs
    · rename_i h0
      rcases div_eq_zero_iff.mp h with h' | h'
      · exact h'
      · exact absurd h' h0
  · intro h
    split
    · rfl
    · rw [h, zero_div]

/-- The largest of three non-negative numbers is zero exactly when all are. -/
theorem max3_eq_zero_iff (a b c : α) (ha : 0 ≤ a) (hb : 0 ≤ b) (hc : 0 ≤ c) :
    Max.max (Max.max a b) c = 0 ↔ a = 0 ∧ b = 0 ∧ c = 0 := by
  constructor
  · intro h
    have h1 : a ≤ 0 := h ▸ le_trans (le_max_left a b) (le_max_left _ c)
    have h2 : b ≤ 0 := h ▸ le_trans (le_max_right a b) (le_max_left _ c)
    have h3 : c ≤ 0 := h ▸ le_max_right _ c
    exact ⟨le_antisymm h1 ha, le_antisymm h2 hb, le_antisymm h3 hc⟩
  · rintro ⟨rfl, rfl, rfl⟩
    simp

/-- The `maxAlbedo` derived by `init`, written out. -/
theorem init_maxAlbedo (m0 : HomogeneousMedium α) :
    (init m0).maxAlbedo =
      Max.max (Max.max (Vec3.guardedDiv m0.sigmaS.x (m0.sigmaA.x + m0.sigmaS.x))
        (Vec3.guardedDiv m0.sigmaS.y (m0.sigmaA.y + m0.sigmaS.y)))
        (Vec3.guardedDiv m0.sigmaS.z (m0.sigmaA.z + m0.sigmaS.z)) := rfl

/-- The `absorptionOnly` flag derived by `init` is the test `maxAlbedo == 0`. -/
theorem init_absorptionOnly (m0 : HomogeneousMedium α) :
    (init m0).absorptionOnly = true ↔ (init m0).maxAlbedo = 0 := by
  simp [init]

/-- C11: for component-wise non-negative `sigmaA` and `sigmaS`, `init` sets
`absorptionOnly` (that is, `maxAlbedo == 0`) exactly when `sigmaS` is zero on
all three channels. -/
theorem init_absorptionOnly_iff_sigmaS_zero (m0 : HomogeneousMedium α)
    (hA : 0 ≤ m0.sigmaA.x ∧ 0 ≤ m0.sigmaA.y ∧ 0 ≤ m0.sigmaA.z)
    (hS : 0 ≤ m0.sigmaS.x ∧ 0 ≤ m0.sigmaS.y ∧ 0 ≤ m0.sigmaS.z) :
    ((init m0).absorptionOnly = true ↔ (init m0).maxAlbedo = 0) ∧
    ((init m0).absorptionOnly = true ↔
      m0.sigmaS.x = 0 ∧ m0.sigmaS.y = 0 ∧ m0.sigmaS.z = 0) := by
  refine ⟨init_absorptionOnly m0, ?_⟩
  rw [init_absorptionOnly, init_maxAlbedo,
    max3_eq_zero_iff _ _ _ (guardedDiv_nonneg _ _ hA.1 hS.1)
      (guardedDiv_nonneg _ _ hA.2.1 hS.2.1) (guardedDiv_nonneg _ _ hA.2.2 hS.2.2),
    guardedDiv_eq_zero_iff _ _ hA.1 hS.1, guardedDiv_eq_zero_iff _ _ hA.2.1 hS.2.1,
    guardedDiv_eq_zero_iff _ _ hA.2.2 hS.2.2]

/-- Witness for C11: `sigmaA = (3,3,3)`, `sigmaS = (1,1,1)` is not absorption
only, and its `sigmaS` is not zero. -/
theorem init_absorptionOnly_iff_sigmaS_zero_witness :
    (foggyMedium ℝ).absorptionOnly = true ↔
      ((1 : ℝ) = 0 ∧ (1 : ℝ) = 0 ∧ (1 : ℝ) = 0) :=
  (init_absorptionOnly_iff_sigmaS_zero
    { baseMedium ℝ with sigmaA := ⟨3, 3, 3⟩, sigmaS := ⟨1, 1, 1⟩ }
    (by norm_num) (by norm_num)).2

/-! ## The bounce counter -/

/-- The general branch of `sampleDistance` advances the state. -/
theorem sampleDistance_state_of_general (exp log : α → α) (m : HomogeneousMedium α)
    (event : VolumeScatterEvent α) (state : MediumState)
    (hB : state.bounce ≤ m.maxBounce) (hAbs : m.absorptionOnly = false) :
    (sampleDistance exp log m event state).2.2 = state.advance := by
  have hb : ¬ state.bounce > m.maxBounce := not_lt.mpr hB
  simp only [sampleDistance, hb, hAbs, if_false, Bool.false_eq_true]

/-- A failed `sampleDistance` returns the event and the state as they came. -/
theorem sampleDistance_eq_of_bounce_gt (exp log : α → α) (m : HomogeneousMedium α)
    (event : VolumeScatterEvent α) (state : MediumState)
    (hB : state.bounce > m.maxBounce) :
    sampleDistance exp log m event state = (false, event, state) := by
  simp [sampleDistance, hB]

/-- Within the bounce limit `sampleDistance` returns true. -/
theorem sampleDistance_true_iff_bounce_le (exp log : α → α) (m : HomogeneousMedium α)
    (event : VolumeScatterEvent α) (state : MediumState) :
    (sampleDistance exp log m event state).1 = true ↔ state.bounce ≤ m.maxBounce := by
  unfold sampleDistance
  by_cases hb : state.bounce > m.maxBounce
  · simp [hb]
  · cases hAbs : m.absorptionOnly <;> simp [hb, not_lt.mp hb]

/-- One call of any operation does not decrease the bounce counter. -/
theorem applyOperation_bounce_le (ext : External α) (m : HomogeneousMedium α)
    (op : Operation) (p : VolumeScatterEvent α × MediumState) :
    p.2.bounce ≤ (applyOperation ext m op p).2.bounce := by
  cases op
  · show p.2.bounce ≤ (sampleDistance ext.exp ext.log m p.1 p.2).2.2.bounce
    by_cases hB : p.2.bounce > m.maxBounce
    · rw [sampleDistance_eq_of_bounce_gt _ _ _ _ _ hB]
    · cases hAbs : m.absorptionOnly
      · rw [sampleDistance_state_of_general _ _ _ _ _ (not_lt.mp hB) hAbs]
        simp [MediumState.advance]
      · rw [sampleDistance_eq_of_absorptionOnly _ _ _ _ _ (not_lt.mp hB) hAbs]
  · show p.2.bounce ≤ (absorb m p.1 p.2).2.2.bounce
    have h : (absorb m p.1 p.2).2.2 = p.2 := by
      by_cases hu : m.maxAlbedo ≤ p.1.sampler.variate p.1.sampler.cursor
      · simp [absorb, hu, UniformSampler.next1D]
      · simp [absorb, hu, UniformSampler.next1D]
    rw [h]
  · exact le_refl _
  · exact le_refl _
  · exact le_refl _
  · exact le_refl _

/-- C12: the bounce counter only moves forward. A successful `sampleDistance`
through the general branch increases `state.bounce` by exactly one, through
the absorption-only branch it leaves it unchanged; `absorb` and `scatter`
never change it; over any sequence of operations the counter never
decreases. -/
theorem bounce_never_decreases (ext : External α) (m : HomogeneousMedium α)
    (event : VolumeScatterEvent α) (state : MediumState) :
    (m.absorptionOnly = false → state.bounce ≤ m.maxBounce →
      (sampleDistance ext.exp ext.log m event state).1 = true ∧
      (sampleDistance ext.exp ext.log m event state).2.2.bounce = state.bounce + 1) ∧
    (m.absorptionOnly = true → state.bounce ≤ m.maxBounce →
      (sampleDistance ext.exp ext.log m event state).1 = true ∧
      (sampleDistance ext.exp ext.log m event state).2.2.bounce = state.bounce) ∧
    (absorb m event state).2.2.bounce = state.bounce ∧
    (applyOperation ext m Operation.scatter (event, state)).2.bounce = state.bounce ∧
    (∀ ops : List Operation,
      state.bounce ≤ (runOperations ext m ops (event, state)).2.bounce) := by
  refine ⟨?_, ?_, ?_, rfl, ?_⟩
  · intro hAbs hB
    have h1 := (sampleDistance_true_iff_bounce_le ext.exp ext.log m event state).mpr hB
    exact ⟨h1, by rw [sampleDistance_state_of_general _ _ _ _ _ hB hAbs]; rfl⟩
  · intro hAbs hB
    rw [sampleDistance_eq_of_absorptionOnly _ _ _ _ _ hB hAbs]
    exact ⟨rfl, rfl⟩
  · by_cases hu : m.maxAlbedo ≤ event.sampler.variate event.sampler.cursor
    · simp [absorb, hu, UniformSampler.next1D]
    · simp [absorb, hu, UniformSampler.next1D]
  · intro ops
    have key : ∀ (l : List Operation) (p : VolumeScatterEvent α × MediumState),
        p.2.bounce ≤ (runOperations ext m l p).2.bounce := by
      intro l
      induction l with
      | nil => intro p; exact le_refl _
      | cons op rest ih =>
        intro p
        exact le_trans (applyOperation_bounce_le ext m op p) (ih (applyOperation ext m op p))
    exact key ops (event, state)

/-- Witness for C12: one general-branch call on the medium `sigmaA = (3,3,3)`,
`sigmaS = (1,1,1)` moves the counter from `0` to `1`. -/
theorem bounce_never_decreases_witness :
    (sampleDistance Real.exp Real.log (foggyMedium ℝ) (sampleEvent ℝ 0 0) ⟨0⟩).1 = true ∧
    (sampleDistance Real.exp Real.log (foggyMedium ℝ) (sampleEvent ℝ 0 0) ⟨0⟩).2.2.bounce
      = 0 + 1 :=
  (bounce_never_decreases (sampleExternal ℝ Real.exp Real.log) (foggyMedium ℝ)
    (sampleEvent ℝ 0 0) ⟨0⟩).1 foggyMedium_absorptionOnly
    (by simp [foggyMedium_maxBounce])

/-! ## Scattering and phase evaluation -/

/-- C13: `scatter` returns true, multiplies the throughput component-wise by
`sigmaS`, sets `pdf` to the phase-function value at the `z` coordinate of the
locally sampled direction, sets `wo` to that direction mapped to global
coordinates by the frame of `wi`, and leaves `wi`, `t` and `maxT` unchanged;
it takes one 2D draw from the primary sampler. -/
theorem scatter_spec (phaseSample : Nat → α → α × α → Vec3 α)
    (phaseEvalFn : Nat → α → α → α) (toGlobal : Vec3 α → Vec3 α → Vec3 α)
    (m : HomogeneousMedium α) (event : VolumeScatterEvent α) :
    (scatter phaseSample phaseEvalFn toGlobal m event).1 = true ∧
    (scatter phaseSample phaseEvalFn toGlobal m event).2.throughput =
      ⟨event.throughput.x * m.sigmaS.x, event.throughput.y * m.sigmaS.y,
       event.throughput.z * m.sigmaS.z⟩ ∧
    (scatter phaseSample phaseEvalFn toGlobal m event).2.pdf =
      phaseEvalFn m.phaseFunction
        (phaseSample m.phaseFunction m.phaseG event.sampler.next2D.1).z m.phaseG ∧
    (scatter phaseSample phaseEvalFn toGlobal m event).2.wo =
      toGlobal event.wi (phaseSample m.phaseFunction m.phaseG event.sampler.next2D.1) ∧
    (scatter phaseSample phaseEvalFn toGlobal m event).2.wi = event.wi ∧
    (scatter phaseSample phaseEvalFn toGlobal m event).2.t = event.t ∧
    (scatter phaseSample phaseEvalFn toGlobal m event).2.maxT = event.maxT ∧
    (scatter phaseSample phaseEvalFn toGlobal m event).2.sampler = event.sampler.next2D.2 ∧
    (scatter phaseSample phaseEvalFn toGlobal m event).2.supplementalSampler
      = event.supplementalSampler :=
  ⟨rfl, rfl, rfl, rfl, rfl, rfl, rfl, rfl, rfl⟩

/-- In an orthonormal frame with third axis `wi`, the cosine between `wi` and
the global image of a local direction is the local `z` coordinate. -/
theorem dot_toGlobal (toGlobal : Vec3 α → Vec3 α → Vec3 α) (wi v : Vec3 α)
    (hFrame : OrthonormalFrame toGlobal wi) : wi.dot (toGlobal wi v) = v.z := by
  obtain ⟨tg, bt, _, _, hww, _, hwt, hwb, hG⟩ := hFrame
  rw [hG v]
  simp only [Vec3.dot, Vec3.add, Vec3.mulScalar] at hww hwt hwb ⊢
  linear_combination v.x * hwt + v.y * hwb + v.z * hww

/-- C14: `phaseEval` agrees with `scatter`. For a unit incident direction `wi`
whose frame is orthonormal with `wi` as third axis, after `scatter` the cosine
`wi . wo` is the `z` coordinate of the locally sampled direction, and
`phaseEval` of the scattered event is `sigmaS` times the `pdf` that `scatter`
stored. -/
theorem phaseEval_scatter_consistent (phaseSample : Nat → α → α × α → Vec3 α)
    (phaseEvalFn : Nat → α → α → α) (toGlobal : Vec3 α → Vec3 α → Vec3 α)
    (m : HomogeneousMedium α) (event : VolumeScatterEvent α)
    (hFrame : OrthonormalFrame toGlobal event.wi) :
    (scatter phaseSample phaseEvalFn toGlobal m event).2.wi.dot
        (scatter phaseSample phaseEvalFn toGlobal m event).2.wo
      = (phaseSample m.phaseFunction m.phaseG event.sampler.next2D.1).z ∧
    phaseEval phaseEvalFn m (scatter phaseSample phaseEvalFn toGlobal m event).2 =
      ⟨m.sigmaS.x * (scatter phaseSample phaseEvalFn toGlobal m event).2.pdf,
       m.sigmaS.y * (scatter phaseSample phaseEvalFn toGlobal m event).2.pdf,
       m.sigmaS.z * (scatter phaseSample phaseEvalFn toGlobal m event).2.pdf⟩ := by
  have hcos : (scatter phaseSample phaseEvalFn toGlobal m event).2.wi.dot
      (scatter phaseSample phaseEvalFn toGlobal m event).2.wo
      = (phaseSample m.phaseFunction m.phaseG event.sampler.next2D.1).z :=
    dot_toGlobal toGlobal event.wi _ hFrame
  refine ⟨hcos, ?_⟩
  unfold phaseEval
  rw [hcos]
  rfl

/-- The frame of `(0,0,1)` with tangent `(1,0,0)` and bitangent `(0,1,0)` is
orthonormal. -/
theorem axisToGlobal_orthonormal :
    OrthonormalFrame (axisToGlobal ℝ) (sampleEvent ℝ 0 0).wi :=
  ⟨⟨1, 0, 0⟩, ⟨0, 1, 0⟩, by simp [Vec3.dot], by simp [Vec3.dot],
    by simp [Vec3.dot, sampleEvent], by simp [Vec3.dot], by simp [Vec3.dot, sampleEvent],
    by simp [Vec3.dot, sampleEvent], fun _ => rfl⟩

/-- Witness for C14: the incident direction `(0,0,1)` with the axis frame, the
forward sampler and the linear phase function on the medium
`sigmaA = (3,3,3)`, `sigmaS = (1,1,1)`: the cosine after `scatter` is `1`. -/
theorem phaseEval_scatter_consistent_witness :
    (scatter (forwardSample ℝ) (linearPhase ℝ) (axisToGlobal ℝ) (foggyMedium ℝ)
        (sampleEvent ℝ 0 0)).2.wi.dot
      (scatter (forwardSample ℝ) (linearPhase ℝ) (axisToGlobal ℝ) (foggyMedium ℝ)
        (sampleEvent ℝ 0 0)).2.wo = 1 :=
  (phaseEval_scatter_consistent (forwardSample ℝ) (linearPhase ℝ) (axisToGlobal ℝ)
    (foggyMedium ℝ) (sampleEvent ℝ 0 0) axisToGlobal_orthonormal).1

/-! ## Failure and the zero-albedo medium -/

/-- C18: failure is atomic. When `sampleDistance` returns false the bounce
limit was exceeded, the event (its `t`, `throughput`, `wi`, `wo`, `pdf` and
both samplers) is returned exactly as it came, and so is the state. -/
theorem sampleDistance_failure_atomic (exp log : α → α) (m : HomogeneousMedium α)
    (event : VolumeScatterEvent α) (state : MediumState)
    (hF : (sampleDistance exp log m event state).1 = false) :
    state.bounce > m.maxBounce ∧
    (sampleDistance exp log m event state).2.1 = event ∧
    (sampleDistance exp log m event state).2.1.sampler.cursor = event.sampler.cursor ∧
    (sampleDistance exp log m event state).2.1.supplementalSampler.cursor
      = event.supplementalSampler.cursor ∧
    (sampleDistance exp log m event state).2.2 = state := by
  have hB : state.bounce > m.maxBounce := by
    by_contra hc
    have := (sampleDistance_true_iff_bounce_le exp log m event state).mpr (not_lt.mp hc)
    rw [this] at hF
    exact Bool.noConfusion hF
  rw [sampleDistance_eq_of_bounce_gt _ _ _ _ _ hB]
  exact ⟨hB, rfl, rfl, rfl, rfl⟩

/-- Witness for C18: bounce `5` against `maxBounce = 4`. -/
theorem sampleDistance_failure_atomic_witness :
    (sampleDistance Real.exp Real.log (foggyMedium ℝ) (sampleEvent ℝ 0 0) ⟨5⟩).2.1
      = sampleEvent ℝ 0 0 ∧
    (sampleDistance Real.exp Real.log (foggyMedium ℝ) (sampleEvent ℝ 0 0) ⟨5⟩).2.2 = ⟨5⟩ :=
  have h := sampleDistance_failure_atomic Real.exp Real.log (foggyMedium ℝ)
    (sampleEvent ℝ 0 0) ⟨5⟩
    (by rw [sampleDistance_eq_of_bounce_gt _ _ _ _ _ (by simp [foggyMedium_maxBounce])])
  ⟨h.2.1, h.2.2.2.2⟩

/-- C19: for a medium with `maxAlbedo = 0`, in particular a derived medium
with `absorptionOnly` set, and a variate `u ≥ 0`, `absorb` returns true and
leaves the throughput as it was: `absorptionWeight` is not written. -/
theorem absorb_of_maxAlbedo_zero (m : HomogeneousMedium α) (event : VolumeScatterEvent α)
    (state : MediumState) (u : α) (hu : 0 ≤ u) :
    (m.maxAlbedo = 0 →
      (absorb m (withVariate event u) state).1 = true ∧
      (absorb m (withVariate event u) state).2.1.throughput = event.throughput) ∧
    (∀ m0 : HomogeneousMedium α, (init m0).absorptionOnly = true →
      (init m0).maxAlbedo = 0 ∧
      (absorb (init m0) (withVariate event u) state).1 = true ∧
      (absorb (init m0) (withVariate event u) state).2.1.throughput = event.throughput) := by
  have key : ∀ m' : HomogeneousMedium α, m'.maxAlbedo = 0 →
      (absorb m' (withVariate event u) state).1 = true ∧
      (absorb m' (withVariate event u) state).2.1.throughput = event.throughput := by
    intro m' h0
    have hle : m'.maxAlbedo ≤ u := by rw [h0]; exact hu
    simp [absorb, withVariate, UniformSampler.feed, UniformSampler.next1D, hle]
  refine ⟨key m, ?_⟩
  intro m0 hAbs
  have h0 := (init_absorptionOnly m0).mp hAbs
  exact ⟨h0, key (init m0) h0⟩

/-- Witness for C19: the default-constructed medium and the variate `0`. -/
theorem absorb_of_maxAlbedo_zero_witness :
    (absorb (vacuumMedium ℝ) (withVariate (sampleEvent ℝ 0 0) 0) ⟨0⟩).1 = true ∧
    (absorb (vacuumMedium ℝ) (withVariate (sampleEvent ℝ 0 0) 0) ⟨0⟩).2.1.throughput
      = (sampleEvent ℝ 0 0).throughput :=
  (absorb_of_maxAlbedo_zero (vacuumMedium ℝ) (sampleEvent ℝ 0 0) ⟨0⟩ 0 (le_refl 0)).1
    (mkDefault_fields (baseMedium ℝ)).2.1

/-- C20: for component-wise non-negative `sigmaA`, `sigmaS` with every
component of `sigmaT` positive, `init` produces albedo components and a
`maxAlbedo` in `[0,1]`, and when `absorptionOnly` is false the weight
`absorptionWeight` is at least `1`. -/
theorem init_albedo_bounds (m0 : HomogeneousMedium α)
    (hA : 0 ≤ m0.sigmaA.x ∧ 0 ≤ m0.sigmaA.y ∧ 0 ≤ m0.sigmaA.z)
    (hS : 0 ≤ m0.sigmaS.x ∧ 0 ≤ m0.sigmaS.y ∧ 0 ≤ m0.sigmaS.z)
    (_hT : 0 < (init m0).sigmaT.x ∧ 0 < (init m0).sigmaT.y ∧ 0 < (init m0).sigmaT.z) :
    (0 ≤ (init m0).albedo.x ∧ (init m0).albedo.x ≤ 1) ∧
    (0 ≤ (init m0).albedo.y ∧ (init m0).albedo.y ≤ 1) ∧
    (0 ≤ (init m0).albedo.z ∧ (init m0).albedo.z ≤ 1) ∧
    (0 ≤ (init m0).maxAlbedo ∧ (init m0).maxAlbedo ≤ 1) ∧
    ((init m0).absorptionOnly = false → 1 ≤ (init m0).absorptionWeight) := by
  have hx0 := guardedDiv_nonneg _ _ hA.1 hS.1
  have hy0 := guardedDiv_nonneg _ _ hA.2.1 hS.2.1
  have hz0 := guardedDiv_nonneg _ _ hA.2.2 hS.2.2
  have hx1 := guardedDiv_le_one _ _ hA.1 hS.1
  have hy1 := guardedDiv_le_one _ _ hA.2.1 hS.2.1
  have hz1 := guardedDiv_le_one _ _ hA.2.2 hS.2.2
  have hm0 : 0 ≤ (init m0).maxAlbedo := by
    rw [init_maxAlbedo]
    exact le_trans hz0 (le_max_right _ _)
  have hm1 : (init m0).maxAlbedo ≤ 1 := by
    rw [init_maxAlbedo]
    exact max_le (max_le hx1 hy1) hz1
  refine ⟨⟨hx0, hx1⟩, ⟨hy0, hy1⟩, ⟨hz0, hz1⟩, ⟨hm0, hm1⟩, ?_⟩
  intro hAbs
  have hne : (init m0).maxAlbedo ≠ 0 := by
    intro h0
    rw [(init_absorptionOnly m0).mpr h0] at hAbs
    exact Bool.noConfusion hAbs
  have hpos : 0 < (init m0).maxAlbedo := lt_of_le_of_ne hm0 (Ne.symm hne)
  show 1 ≤ 1 / (init m0).maxAlbedo
  rw [le_div_iff₀ hpos, one_mul]
  exact hm1

/-- Witness for C20: `sigmaA = (3,3,3)`, `sigmaS = (1,1,1)`: the weight is at
least `1`. -/
theorem init_albedo_bounds_witness :
    1 ≤ (foggyMedium ℝ).absorptionWeight :=
  (init_albedo_bounds { baseMedium ℝ with sigmaA := ⟨3, 3, 3⟩, sigmaS := ⟨1, 1, 1⟩ }
    (by norm_num) (by norm_num)
    (by
      have h : (foggyMedium ℝ).sigmaT = ⟨4, 4, 4⟩ := foggyMedium_sigmaT
      unfold foggyMedium at h
      rw [h]; norm_num)).2.2.2.2 foggyMedium_absorptionOnly

/-! ## The pass-through branch of distance sampling -/

/-- The traced derivation computes the medium that `init` computes. -/
theorem initTraced_fst (m0 : HomogeneousMedium α) : (initTraced m0).1 = init m0 := rfl

/-- The traced distance sampling computes what `sampleDistance` computes. -/
theorem sampleDistanceTraced_fst (exp log : α → α) (m : HomogeneousMedium α)
    (event : VolumeScatterEvent α) (state : MediumState) :
    (sampleDistanceTraced exp log m event state).1 = sampleDistance exp log m event state := by
  unfold sampleDistanceTraced sampleDistance
  by_cases hb : state.bounce > m.maxBounce
  · simp only [hb, if_true]
  · cases hAbs : m.absorptionOnly
    · simp only [hb, if_false, Bool.false_eq_true]
      split <;> rfl
    · simp only [hb, if_false, if_true]

/-- In the general branch `sampleDistance` evaluates the division of line 71
and then that of line 75 or of line 77, with the divisors `generalDivisors`. -/
theorem sampleDistanceTraced_snd_of_general (exp log : α → α) (m : HomogeneousMedium α)
    (event : VolumeScatterEvent α) (state : MediumState)
    (hB : state.bounce ≤ m.maxBounce) (hAbs : m.absorptionOnly = false) :
    (sampleDistanceTraced exp log m event state).2 =
      [⟨71, (generalDivisors exp log m event).1⟩,
        if (freePath log m event).ltNumber event.maxT = true then
          ⟨75, (generalDivisors exp log m event).2.1⟩
        else ⟨77, (generalDivisors exp log m event).2.2⟩] := by
  have hb : ¬ state.bounce > m.maxBounce := not_lt.mpr hB
  unfold sampleDistanceTraced generalDivisors freePath
  simp only [hb, if_false, hAbs, Bool.false_eq_true]
  split <;> rfl

/-- With every component of `sigmaT` positive the three divisors of the
general branch are positive. -/
theorem generalDivisors_pos (m : HomogeneousMedium ℝ) (event : VolumeScatterEvent ℝ)
    (hx : 0 < m.sigmaT.x) (hy : 0 < m.sigmaT.y) (hz : 0 < m.sigmaT.z) :
    0 < (generalDivisors Real.exp Real.log m event).1 ∧
    0 < (generalDivisors Real.exp Real.log m event).2.1 ∧
    0 < (generalDivisors Real.exp Real.log m event).2.2 := by
  refine ⟨?_, ?_, ?_⟩
  · show 0 < m.sigmaT.get (event.supplementalSampler.nextI.1 % 3)
    unfold Vec3.get
    split
    · exact hx
    · exact hy
    · exact hz
  · simp only [generalDivisors, Vec3.avg, Vec3.mul, Vec3.map, Vec3.scalarMul]
    have := Real.exp_pos
    positivity
  · simp only [generalDivisors, Vec3.avg, Vec3.map, Vec3.scalarMul]
    have := Real.exp_pos
    positivity

/-- A derived medium with non-negative coefficients that takes the general
branch has a non-zero component of `sigmaT`, and `sigmaT` is non-negative. -/
theorem init_general_sigmaT (m0 : HomogeneousMedium α)
    (hA : 0 ≤ m0.sigmaA.x ∧ 0 ≤ m0.sigmaA.y ∧ 0 ≤ m0.sigmaA.z)
    (hS : 0 ≤ m0.sigmaS.x ∧ 0 ≤ m0.sigmaS.y ∧ 0 ≤ m0.sigmaS.z)
    (hAbs : (init m0).absorptionOnly = false) :
    (0 ≤ (init m0).sigmaT.x ∧ 0 ≤ (init m0).sigmaT.y ∧ 0 ≤ (init m0).sigmaT.z) ∧
    ((init m0).sigmaT.x ≠ 0 ∨ (init m0).sigmaT.y ≠ 0 ∨ (init m0).sigmaT.z ≠ 0) := by
  have hnn : 0 ≤ (init m0).sigmaT.x ∧ 0 ≤ (init m0).sigmaT.y ∧ 0 ≤ (init m0).sigmaT.z :=
    ⟨add_nonneg hA.1 hS.1, add_nonneg hA.2.1 hS.2.1, add_nonneg hA.2.2 hS.2.2⟩
  refine ⟨hnn, ?_⟩
  by_contra hall
  push_neg at hall
  have hx : m0.sigmaA.x + m0.sigmaS.x = 0 := hall.1
  have hy : m0.sigmaA.y + m0.sigmaS.y = 0 := hall.2.1
  have hz : m0.sigmaA.z + m0.sigmaS.z = 0 := hall.2.2
  have h0 : (init m0).maxAlbedo = 0 := by
    rw [init_maxAlbedo]
    simp [Vec3.guardedDiv, hx, hy, hz]
  rw [(init_absorptionOnly m0).mpr h0] at hAbs
  exact Bool.noConfusion hAbs

/-- A mean of products of non-negative weights with positive values is zero
only when every weight is zero. -/
theorem weighted_mean_eq_zero (a b c ea eb ec : ℝ) (ha : 0 ≤ a) (hb : 0 ≤ b) (hc : 0 ≤ c)
    (hea : 0 < ea) (heb : 0 < eb) (hec : 0 < ec) (h : (a * ea + b * eb + c * ec) / 3 = 0) :
    a = 0 ∧ b = 0 ∧ c = 0 := by
  have hsum : a * ea + b * eb + c * ec = 0 :=
    (div_eq_zero_iff.mp h).resolve_right (by norm_num)
  have p1 := mul_nonneg ha hea.le
  have p2 := mul_nonneg hb heb.le
  have p3 := mul_nonneg hc hec.le
  have z1 : a * ea = 0 := by linarith
  have z2 : b * eb = 0 := by linarith
  have z3 : c * ec = 0 := by linarith
  exact ⟨(mul_eq_zero.mp z1).resolve_right hea.ne', (mul_eq_zero.mp z2).resolve_right heb.ne',
    (mul_eq_zero.mp z3).resolve_right hec.ne'⟩

/-- A mean of three positive values is not zero. -/
theorem mean_ne_zero (ea eb ec : ℝ) (hea : 0 < ea) (heb : 0 < eb) (hec : 0 < ec)
    (h : (ea + eb + ec) / 3 = 0) : False := by
  have hsum : ea + eb + ec = 0 := (div_eq_zero_iff.mp h).resolve_right (by norm_num)
  linarith

/-- C16: in the general branch, when every component of `sigmaT` is positive
the three divisors (`sigmaT[channel]`, the mean of `sigmaT * T`, the mean of
`T`) are strictly positive for every variate and every `maxT`, and so is the
divisor of every division the call evaluates. For a derived medium with
non-negative coefficients a division by zero in the general branch occurs only
when `sigmaT` has a zero component while another component is non-zero. -/
theorem generalBranch_divisors (m : HomogeneousMedium ℝ) (event : VolumeScatterEvent ℝ)
    (state : MediumState) (hB : state.bounce ≤ m.maxBounce) :
    (sampleDistanceTraced Real.exp Real.log m event state).1
      = sampleDistance Real.exp Real.log m event state ∧
    (m.absorptionOnly = false → 0 < m.sigmaT.x → 0 < m.sigmaT.y → 0 < m.sigmaT.z →
      0 < (generalDivisors Real.exp Real.log m event).1 ∧
      0 < (generalDivisors Real.exp Real.log m event).2.1 ∧
      0 < (generalDivisors Real.exp Real.log m event).2.2 ∧
      ∀ d ∈ (sampleDistanceTraced Real.exp Real.log m event state).2, 0 < d.divisor) ∧
    (∀ m0 : HomogeneousMedium ℝ, m = init m0 → m.absorptionOnly = false →
      (0 ≤ m0.sigmaA.x ∧ 0 ≤ m0.sigmaA.y ∧ 0 ≤ m0.sigmaA.z) →
      (0 ≤ m0.sigmaS.x ∧ 0 ≤ m0.sigmaS.y ∧ 0 ≤ m0.sigmaS.z) →
      (∃ d ∈ (sampleDistanceTraced Real.exp Real.log m event state).2, d.divisor = 0) →
      (m.sigmaT.x = 0 ∨ m.sigmaT.y = 0 ∨ m.sigmaT.z = 0) ∧
      (m.sigmaT.x ≠ 0 ∨ m.sigmaT.y ≠ 0 ∨ m.sigmaT.z ≠ 0)) := by
  refine ⟨sampleDistanceTraced_fst _ _ _ _ _, ?_, ?_⟩
  · intro hAbs hx hy hz
    have hpos := generalDivisors_pos m event hx hy hz
    refine ⟨hpos.1, hpos.2.1, hpos.2.2, ?_⟩
    intro d hd
    rw [sampleDistanceTraced_snd_of_general _ _ _ _ _ hB hAbs] at hd
    simp only [List.mem_cons, List.mem_singleton, List.not_mem_nil, or_false] at hd
    rcases hd with rfl | rfl
    · exact hpos.1
    · split
      · exact hpos.2.1
      · exact hpos.2.2
  · intro m0 hm hAbs hA hS hzero
    subst hm
    obtain ⟨hnn, hne⟩ := init_general_sigmaT m0 hA hS hAbs
    refine ⟨?_, hne⟩
    obtain ⟨d, hd, hd0⟩ := hzero
    rw [sampleDistanceTraced_snd_of_general _ _ _ _ _ hB hAbs] at hd
    simp only [List.mem_cons, List.mem_singleton, List.not_mem_nil, or_false] at hd
    have ex := Real.exp_pos
    rcases hd with rfl | rfl
    · have h71 : (init m0).sigmaT.get (event.supplementalSampler.nextI.1 % 3) = 0 := hd0
      unfold Vec3.get at h71
      split at h71
      · exact Or.inl h71
      · exact Or.inr (Or.inl h71)
      · exact Or.inr (Or.inr h71)
    · exfalso
      split at hd0
      · have h75 : (generalDivisors Real.exp Real.log (init m0) event).2.1 = 0 := hd0
        simp only [generalDivisors, Vec3.avg, Vec3.mul, Vec3.map, Vec3.scalarMul] at h75
        have hz := weighted_mean_eq_zero _ _ _ _ _ _ hnn.1 hnn.2.1 hnn.2.2
          (ex _) (ex _) (ex _) h75
        rcases hne with h | h | h
        · exact h hz.1
        · exact h hz.2.1
        · exact h hz.2.2
      · have h77 : (generalDivisors Real.exp Real.log (init m0) event).2.2 = 0 := hd0
        simp only [generalDivisors, Vec3.avg, Vec3.map, Vec3.scalarMul] at h77
        exact mean_ne_zero _ _ _ (ex _) (ex _) (ex _) h77

/-- Witness for C16: the medium `sigmaA = (3,3,3)`, `sigmaS = (1,1,1)`, whose
`sigmaT` is `(4,4,4)`: the divisor of line 71 is positive. -/
theorem generalBranch_divisors_witness :
    0 < (generalDivisors Real.exp Real.log (foggyMedium ℝ) (sampleEvent ℝ 0 0)).1 :=
  ((generalBranch_divisors (foggyMedium ℝ) (sampleEvent ℝ 0 0) ⟨0⟩
    (by simp [foggyMedium_maxBounce])).2.1 foggyMedium_absorptionOnly
    (by rw [foggyMedium_sigmaT]; norm_num) (by rw [foggyMedium_sigmaT]; norm_num)
    (by rw [foggyMedium_sigmaT]; norm_num)).1

end Theorems

end Tungsten
